import Mathlib

/-!
Verification development for the CoResidency control-plane core
(`source/coresidency_detector.py`, `source/configuration_manager.py`,
`source/event_manager.py`, `source/meta/singleton.py`).

The Python code is shallowly embedded:
* Python dicts (which preserve insertion order and have unique keys) become
  association lists `List (String × α)` with `lookupA` / `updateA` mirroring
  `d[k]` / `d[k] = v`;
* `collections.deque` becomes `List` (append at the tail, `popleft` at the head);
* Python numbers become `ℚ` (exact arithmetic; `round` is modelled by `pyRound`,
  Python's round-half-to-even);
* Python exceptions (`KeyError`, `IndexError`, `ZeroDivisionError`, `TypeError`,
  `sys.exit`) become an `Except PyErr` result;
* the reference-aliasing statement
  `self.__normalized_metrics['Activity'] = self.__metrics['Activity']`
  in `HostMetrics.record_sample` makes the two dict entries share one deque
  object forever after (nothing ever rebinds either entry to a fresh deque);
  this is modelled by the `actAliased` flag together with the redirecting
  accessors `normLookup` / `normSet`, which operate on the `metrics` entry for
  the key `"Activity"` once the alias exists.
-/

namespace CoResidency

/-- Python exception kinds relevant to the embedded code. `sysExit` models
`sys.exit(1)` (a `SystemExit`, which is not caught by `except KeyError`). -/
inductive PyErr where
  | keyError
  | indexError
  | zeroDiv
  | typeError
  | sysExit
deriving DecidableEq, Repr

/-- Metric values: Python ints/floats, modelled exactly. -/
abbrev Value := ℚ

/-- Dict lookup `d[k]` returning `none` for a missing key. -/
def lookupA {α : Type} : List (String × α) → String → Option α
  | [], _ => none
  | (k', v') :: rest, k => if k' = k then some v' else lookupA rest k

/-- Dict assignment `d[k] = v`: overwrite in place if the key exists
(keeping its position), otherwise append at the end — Python dict semantics. -/
def updateA {α : Type} : List (String × α) → String → α → List (String × α)
  | [], k, v => [(k, v)]
  | (k', v') :: rest, k, v =>
      if k' = k then (k', v) :: rest else (k', v') :: updateA rest k v

/-- `d.get(k, default)`-style total lookup. -/
def getDA {α : Type} (l : List (String × α)) (k : String) (d : α) : α :=
  (lookupA l k).getD d

/-- The keys of a dict, in insertion order. -/
def keysA {α : Type} (l : List (String × α)) : List String :=
  l.map Prod.fst

/-- Python `sum` over a deque of numbers. -/
def pySum (l : List Value) : Value := l.foldl (· + ·) 0

/-- Python 3 `round` to an integer: nearest, ties to even. -/
def pyRound (x : ℚ) : ℤ :=
  let f := ⌊x⌋
  let r := x - (f : ℚ)
  if r < 1/2 then f
  else if 1/2 < r then f + 1
  else if f % 2 = 0 then f else f + 1

/-- Per-host state of `CoResidencyDetector.HostMetrics`. `actAliased` records
whether `normalized['Activity']` and `metrics['Activity']` are the same deque
object (true after the first `record_sample`, never undone). -/
structure HostMetrics where
  metrics : List (String × List Value)
  normalized : List (String × List Value)
  maxSamples : ℤ
  currentSamples : ℤ
  activityThreshold : ℤ
  inactivityThreshold : ℤ
  prefNormalized : Bool
  deltas : List (String × Value)
  active : Bool
  actAliased : Bool
deriving DecidableEq, Repr

/-- Read `self.__normalized_metrics[k]`, following the `Activity` alias. -/
def HostMetrics.normLookup (hm : HostMetrics) (k : String) : Option (List Value) :=
  if hm.actAliased = true ∧ k = "Activity" then lookupA hm.metrics k
  else lookupA hm.normalized k

/-- Mutate the deque behind `self.__normalized_metrics[k]`, following the
`Activity` alias (a mutation of the shared deque is visible through
`metrics['Activity']` as well). -/
def HostMetrics.normSet (hm : HostMetrics) (k : String) (v : List Value) : HostMetrics :=
  if hm.actAliased = true ∧ k = "Activity" then { hm with metrics := updateA hm.metrics k v }
  else { hm with normalized := updateA hm.normalized k v }

/-- Second half of one window-full loop iteration:
`self.__normalized_metrics[key].popleft()` (on the state where the raw deque
was already popped). A missing key raises `KeyError`, an empty deque raises
`IndexError`. -/
def popNorm (hm : HostMetrics) (k : String) : Except PyErr HostMetrics :=
  match hm.normLookup k with
  | none => .error .keyError
  | some [] => .error .indexError
  | some (_ :: rest2) => .ok (hm.normSet k rest2)

/-- One iteration of the window-full loop in `record_sample`:
`self.__metrics[key].popleft()` (KeyError on a missing key, IndexError on an
empty deque) followed by the normalized popleft via `popNorm`. -/
def popleftStep (hm : HostMetrics) (k : String) : Except PyErr HostMetrics :=
  match lookupA hm.metrics k with
  | none => .error .keyError
  | some [] => .error .indexError
  | some (_ :: rest) => popNorm { hm with metrics := updateA hm.metrics k rest } k

/-- One iteration of the append loop in `record_sample`:
`self.__metrics[key].append(value)` followed by
`self.__normalized_metrics[key].append(self.__metrics[key][-1] - self.__metrics[key][-2])`.
Python evaluates the `normalized_metrics[key]` subscript (possible `KeyError`)
before the argument `metrics[key][-2]` (possible `IndexError` when the deque
held fewer than two entries). Under the `Activity` alias both the value append
and the difference append land on the shared deque. `appendNorm` is the second
half (run on the state where the raw value was already appended): `prev?` is
`metrics[key][-2]`, i.e. the last raw entry before the append. -/
def appendNorm (hm : HostMetrics) (k : String) (prev? : Option Value) (v : Value) :
    Except PyErr HostMetrics :=
  match hm.normLookup k with
  | none => .error .keyError
  | some nl =>
    match prev? with
    | none => .error .indexError
    | some prev => .ok (hm.normSet k (nl ++ [v - prev]))

def appendStep (hm : HostMetrics) (k : String) (v : Value) : Except PyErr HostMetrics :=
  match lookupA hm.metrics k with
  | none => .error .keyError
  | some l => appendNorm { hm with metrics := updateA hm.metrics k (l ++ [v]) } k l.getLast? v

/-- The hysteresis block shared by `__init__` and `record_sample`:
`if sum(metrics['Activity']) > activityThreshold: active = True
elif sum(metrics['Activity']) < inactivityThreshold: active = False`.
Both call sites have already ensured `'Activity'` is a key of `metrics`,
so the total `getDA … []` read is exact there. -/
def HostMetrics.adjustActive (hm : HostMetrics) : HostMetrics :=
  let s : Value := pySum (getDA hm.metrics "Activity" [])
  if (hm.activityThreshold : ℚ) < s then { hm with active := true }
  else if s < (hm.inactivityThreshold : ℚ) then { hm with active := false }
  else hm

/-- One iteration of the constructor's seeding loop:
`metrics[key] = deque([value]); normalized_metrics[key] = deque([value])`. -/
def seedStep (h : HostMetrics) (p : String × Value) : HostMetrics :=
  { h with
      metrics := updateA h.metrics p.1 [p.2]
      normalized := updateA h.normalized p.1 [p.2] }

/-- The empty `HostMetrics` the constructor fills before seeding:
non-positive threshold arguments default to `maxSamples - 1` and `1`. -/
def HostMetrics.base (maxSamples : ℤ) (activityThreshold : ℤ) (inactivityThreshold : ℤ)
    (prefNormalized : Bool) : HostMetrics :=
  { metrics := []
    normalized := []
    maxSamples := maxSamples
    currentSamples := 1
    activityThreshold := if 0 < activityThreshold then activityThreshold else maxSamples - 1
    inactivityThreshold := if 0 < inactivityThreshold then inactivityThreshold else 1
    prefNormalized := prefNormalized
    deltas := []
    active := false
    actAliased := false }

/-- `HostMetrics.__init__`. A first sample without the `Activity` metric calls
`sys.exit(1)`. Seeds both deques with the single initial value and runs the
hysteresis block starting from `active = False`. -/
def HostMetrics.init (initialMetrics : List (String × Value)) (maxSamples : ℤ)
    (activityThreshold : ℤ) (inactivityThreshold : ℤ) (prefNormalized : Bool) :
    Except PyErr HostMetrics :=
  if "Activity" ∈ keysA initialMetrics then
    .ok (HostMetrics.adjustActive
      (initialMetrics.foldl seedStep
        (HostMetrics.base maxSamples activityThreshold inactivityThreshold prefNormalized)))
  else .error .sysExit

/-- The window-full popleft loop of `record_sample`, over the sample's keys. -/
def popLoop : HostMetrics → List (String × Value) → Except PyErr HostMetrics
  | hm, [] => .ok hm
  | hm, (k, _) :: rest =>
    match popleftStep hm k with
    | .error e => .error e
    | .ok hm1 => popLoop hm1 rest

/-- The append loop of `record_sample`, over the sample's keys. -/
def appendLoop : HostMetrics → List (String × Value) → Except PyErr HostMetrics
  | hm, [] => .ok hm
  | hm, (k, v) :: rest =>
    match appendStep hm k v with
    | .error e => .error e
    | .ok hm1 => appendLoop hm1 rest

/-- The leading window management of `record_sample`: pop the oldest entries
when the window is full, otherwise increment `currentSamples`. -/
def recordWindow (hm : HostMetrics) (sample : List (String × Value)) :
    Except PyErr HostMetrics :=
  if hm.currentSamples = hm.maxSamples then popLoop hm sample
  else .ok { hm with currentSamples := hm.currentSamples + 1 }

/-- The trailing part of `record_sample`:
`self.__normalized_metrics['Activity'] = self.__metrics['Activity']`
(establishing the permanent alias; `KeyError` if `metrics` lacks the key,
which the constructor rules out) followed by the hysteresis block. -/
def recordFinish (hm2 : HostMetrics) : Except PyErr HostMetrics :=
  match lookupA hm2.metrics "Activity" with
  | none => .error .keyError
  | some act =>
    .ok (HostMetrics.adjustActive
      { hm2 with normalized := updateA hm2.normalized "Activity" act, actAliased := true })

/-- `HostMetrics.record_sample`. Drops the oldest entries when the window is
full (otherwise increments `currentSamples`), appends the raw value and the
first difference for every metric of the sample, then executes the
`Activity` aliasing assignment and the hysteresis block. -/
def HostMetrics.record_sample (hm : HostMetrics) (sample : List (String × Value)) :
    Except PyErr HostMetrics :=
  match recordWindow hm sample with
  | .error e => .error e
  | .ok hm1 =>
    match appendLoop hm1 sample with
    | .error e => .error e
    | .ok hm2 => recordFinish hm2

/-- The sequence `get_metrics` averages for a key:
`collection = metrics if not pref_normalized else normalized_metrics`. -/
def HostMetrics.chosenSeq (hm : HostMetrics) (k : String) : List Value :=
  if hm.prefNormalized then (hm.normLookup k).getD [] else getDA hm.metrics k []

/-- `HostMetrics.get_metrics`: for each key of `metrics`, in order,
`report[key] = round(sum(collection[key]) / current_samples)`. Modelled
totally: on every state the detector constructs, `normalized` has every key of
`metrics` and `currentSamples ≥ 1`, so the `getD`-reads and the `ℚ` division
agree with Python. -/
def HostMetrics.get_metrics (hm : HostMetrics) : List (String × Value) :=
  (keysA hm.metrics).foldl
    (fun rep k =>
      updateA rep k ((pyRound (pySum (hm.chosenSeq k) / (hm.currentSamples : ℚ)) : ℤ) : ℚ)) []

/-- The loop of `update_deltas`:
`self.__deltas[key] = abs(1.0 - metrics[key] / global_metrics[key])`.
A key missing from `global_metrics` raises `KeyError`; a zero baseline raises
`ZeroDivisionError`. Neither is caught anywhere in the detector. -/
def updateDeltasLoop (globalMetrics : List (String × Value)) :
    HostMetrics → List (String × Value) → Except PyErr HostMetrics
  | hm, [] => .ok hm
  | hm, (k, v) :: rest =>
    match lookupA globalMetrics k with
    | none => .error .keyError
    | some g =>
      if g = 0 then .error .zeroDiv
      else updateDeltasLoop globalMetrics
        { hm with deltas := updateA hm.deltas k |1 - v / g| } rest

/-- `HostMetrics.update_deltas`. -/
def HostMetrics.update_deltas (hm : HostMetrics) (globalMetrics : List (String × Value)) :
    Except PyErr HostMetrics :=
  updateDeltasLoop globalMetrics hm hm.get_metrics

/-- One round of `__adjust_sample_size`'s inner loop: popleft both deques for
every key of `metrics` (under the `Activity` alias this pops the shared deque
twice). -/
def adjustRound (hm : HostMetrics) : Except PyErr HostMetrics :=
  go hm (keysA hm.metrics)
where
  go : HostMetrics → List String → Except PyErr HostMetrics
  | h, [] => .ok h
  | h, k :: rest =>
    match popleftStep h k with
    | .error e => .error e
    | .ok h1 => go h1 rest

/-- `for _ in range(n)` around `adjustRound`. -/
def adjustRounds : HostMetrics → ℕ → Except PyErr HostMetrics
  | hm, 0 => .ok hm
  | hm, n + 1 =>
    match adjustRound hm with
    | .error e => .error e
    | .ok hm1 => adjustRounds hm1 n

/-- `HostMetrics.__adjust_sample_size`: when shrinking, drop
`maxSamples - newMax` rounds of oldest entries, then store the new maximum.
`currentSamples` is NOT touched. -/
def HostMetrics.adjust_sample_size (hm : HostMetrics) (newMax : ℤ) : Except PyErr HostMetrics :=
  if newMax < hm.maxSamples then
    match adjustRounds hm (hm.maxSamples - newMax).toNat with
    | .error e => .error e
    | .ok hm1 => .ok { hm1 with maxSamples := newMax }
  else .ok { hm with maxSamples := newMax }

/-- `HostMetrics.reconfigure`: stores the new thresholds and normalization
preference verbatim (no positivity defaulting here, unlike `__init__`),
then adjusts the window size. -/
def HostMetrics.reconfigure (hm : HostMetrics) (newMax : ℤ) (newAct : ℤ) (newInact : ℤ)
    (newPref : Bool) : Except PyErr HostMetrics :=
  HostMetrics.adjust_sample_size
    { hm with
        activityThreshold := newAct
        inactivityThreshold := newInact
        prefNormalized := newPref } newMax

/-- The flat configuration view the detector reads
(`configuration["MaxSamples"]`, …). `mitigation = none` models a falsy
`configuration["Mitigation"]`; otherwise it holds
`(FlagsBeforeActivation, DeflagsBeforeDeactivation)`. -/
structure Config where
  maxSamples : ℤ
  samplesBeforeInclusion : ℤ
  samplesBeforeExclusion : ℤ
  normalizeSamples : Bool
  thresholds : List (String × Value)
  mitigation : Option (ℤ × ℤ)
deriving DecidableEq, Repr

/-- Mitigation events emitted by the detector during a sample batch. -/
inductive Event where
  | startMitigation (host : String)
  | stopMitigation (host : String)
deriving DecidableEq, Repr

/-- The aggregate state of the `CoResidencyDetector` singleton.
`mitigatedHostIds` models a Python `set` (only membership, `add` and
`discard` are ever used on it). -/
structure Detector where
  config : Config
  hostMetrics : List (String × HostMetrics)
  hostFlags : List (String × ℤ)
  hostDeflags : List (String × ℤ)
  globalMetrics : List (String × Value)
  mitigatedHostIds : List String
deriving DecidableEq, Repr

/-- `CoResidencyDetector.__init__`: all maps start empty. -/
def Detector.init (cfg : Config) : Detector :=
  { config := cfg
    hostMetrics := []
    hostFlags := []
    hostDeflags := []
    globalMetrics := []
    mitigatedHostIds := [] }

/-- `set.add`. -/
def setAdd (s : List String) (x : String) : List String :=
  if x ∈ s then s else s ++ [x]

/-- `set.discard`. -/
def setDiscard (s : List String) (x : String) : List String :=
  s.filter (fun y => y != x)

/-- One iteration of phase (a) of `__update_metrics` for one host of the
payload: try `host_metrics[host_id].record_sample(…)`; on `KeyError`
(either the host is unknown or `record_sample` itself raised one for an
unknown metric name) replace the entry with a freshly constructed
`HostMetrics` seeded from the current sample. A `SystemExit` from the
constructor and any `IndexError` propagate. `recordOutcome` is the guarded
part: `self.host_metrics[host_id].record_sample(metrics[host_id])`, whose
`KeyError` (from the dict lookup or from inside `record_sample`) is what the
`except KeyError` catches. -/
def recordOutcome (d : Detector) (hostId : String) (sample : List (String × Value)) :
    Except PyErr HostMetrics :=
  match lookupA d.hostMetrics hostId with
  | none => .error .keyError
  | some hm => hm.record_sample sample

def Detector.recordOrReplace (d : Detector) (hostId : String)
    (sample : List (String × Value)) : Except PyErr Detector :=
  match recordOutcome d hostId sample with
  | .ok hm' => .ok { d with hostMetrics := updateA d.hostMetrics hostId hm' }
  | .error .keyError =>
    match HostMetrics.init sample d.config.maxSamples d.config.samplesBeforeInclusion
        d.config.samplesBeforeExclusion d.config.normalizeSamples with
    | .error e => .error e
    | .ok hm' => .ok { d with hostMetrics := updateA d.hostMetrics hostId hm' }
  | .error e => .error e

/-- Phase (a): the loop over the payload's host ids. -/
def recordLoop : Detector → List (String × List (String × Value)) → Except PyErr Detector
  | d, [] => .ok d
  | d, p :: rest =>
    match d.recordOrReplace p.1 p.2 with
    | .error e => .error e
    | .ok d1 => recordLoop d1 rest

/-- The inner accumulation loop of `__update_global_metrics`:
`try: global[key] += value; except KeyError: global[key] = value`. -/
def globalAddReport (g : List (String × Value)) (rep : List (String × Value)) :
    List (String × Value) :=
  rep.foldl (fun acc q => updateA acc q.1 (getDA acc q.1 0 + q.2)) g

/-- One host of the phase (b) loop: skip it if it is mitigated or inactive
(`if host_id in self.mitigated_host_ids or not ...is_active(): continue`),
otherwise accumulate its report and count it as benign. -/
def gStep (mit : List String) (acc : List (String × Value) × ℕ) (p : String × HostMetrics) :
    List (String × Value) × ℕ :=
  if p.1 ∈ mit ∨ p.2.active = false then acc
  else (globalAddReport acc.1 p.2.get_metrics, acc.2 + 1)

/-- `CoResidencyDetector.__update_global_metrics` (phase (b)):
clear `global_metrics`, accumulate the averaged report of every host that is
active and not mitigated, and divide by the benign-host count when it is
non-zero. -/
def Detector.update_global_metrics (d : Detector) : Detector :=
  let gn := d.hostMetrics.foldl (gStep d.mitigatedHostIds) ([], 0)
  let g := if gn.2 ≠ 0 then gn.1.map (fun q => (q.1, q.2 / (gn.2 : ℚ))) else gn.1
  { d with globalMetrics := g }

/-- The loop of `__update_host_deltas` (phase (c)): every active host
recomputes its deltas against the current global metrics; inactive hosts are
skipped. Iterates the original key sequence while writing through
`updateA` (host ids are unique, as in a Python dict). -/
def hdLoop (g : List (String × Value)) :
    List (String × HostMetrics) → List (String × HostMetrics) →
    Except PyErr (List (String × HostMetrics))
  | store, [] => .ok store
  | store, p :: rest =>
    if p.2.active = false then hdLoop g store rest
    else
      match p.2.update_deltas g with
      | .error e => .error e
      | .ok hm' => hdLoop g (updateA store p.1 hm') rest

/-- `CoResidencyDetector.__update_host_deltas` (phase (c)). -/
def Detector.update_host_deltas (d : Detector) : Except PyErr Detector :=
  match hdLoop d.globalMetrics d.hostMetrics d.hostMetrics with
  | .error e => .error e
  | .ok hms => .ok { d with hostMetrics := hms }

/-- The `trigger_flag` computation of `__update_host_flags`: walk the host's
deltas in order; the first delta that is `<=` its threshold clears the flag
and breaks; a delta key missing from `Thresholds` raises `KeyError`
(only if it is reached before any `<=` hit). -/
def computeTrigger : List (String × Value) → List (String × Value) → Except PyErr Bool
  | [], _ => .ok true
  | (k, v) :: rest, thresholds =>
    match lookupA thresholds k with
    | none => .error .keyError
    | some t => if v ≤ t then .ok false else computeTrigger rest thresholds

/-- The body of the `__update_host_flags` loop for one host. -/
def flagStep (d : Detector) (p : String × HostMetrics) : Except PyErr Detector :=
  if p.2.active = false then .ok d
  else
    match computeTrigger p.2.deltas d.config.thresholds with
    | .error e => .error e
    | .ok trigger =>
      if trigger then
        if p.1 ∈ d.mitigatedHostIds then
          .ok { d with hostDeflags := updateA d.hostDeflags p.1 0 }
        else
          .ok { d with hostFlags := updateA d.hostFlags p.1 (getDA d.hostFlags p.1 0 + 1) }
      else if p.1 ∈ d.mitigatedHostIds then
        .ok { d with hostDeflags := updateA d.hostDeflags p.1 (getDA d.hostDeflags p.1 0 + 1) }
      else .ok d

/-- The loop of `__update_host_flags` (phase (d)). -/
def flagsLoop : Detector → List (String × HostMetrics) → Except PyErr Detector
  | d, [] => .ok d
  | d, p :: rest =>
    match flagStep d p with
    | .error e => .error e
    | .ok d1 => flagsLoop d1 rest

/-- `CoResidencyDetector.__update_host_flags` (phase (d)). -/
def Detector.update_host_flags (d : Detector) : Except PyErr Detector :=
  flagsLoop d d.hostMetrics

/-- The start-mitigation loop of phase (e): every `(host, value)` of
`host_flags` with `value > FlagsBeforeActivation` is added to the mitigated
set, a `StartMitigation` is emitted, and its flag counter is reset to 0. -/
def startLoop (fba : ℤ) : Detector → List Event → List (String × ℤ) → Detector × List Event
  | d, evs, [] => (d, evs)
  | d, evs, p :: rest =>
    if fba < p.2 then
      startLoop fba
        { d with
            mitigatedHostIds := setAdd d.mitigatedHostIds p.1
            hostFlags := updateA d.hostFlags p.1 0 }
        (evs ++ [Event.startMitigation p.1]) rest
    else startLoop fba d evs rest

/-- The stop-mitigation loop of phase (e), symmetric over `host_deflags`. -/
def stopLoop (dbd : ℤ) : Detector → List Event → List (String × ℤ) → Detector × List Event
  | d, evs, [] => (d, evs)
  | d, evs, p :: rest =>
    if dbd < p.2 then
      stopLoop dbd
        { d with
            mitigatedHostIds := setDiscard d.mitigatedHostIds p.1
            hostDeflags := updateA d.hostDeflags p.1 0 }
        (evs ++ [Event.stopMitigation p.1]) rest
    else stopLoop dbd d evs rest

/-- Phase (e): skipped entirely when `configuration["Mitigation"]` is falsy;
otherwise runs the start loop over `host_flags`, then the stop loop over the
(possibly untouched) `host_deflags`. -/
def Detector.dispatch (d : Detector) : Detector × List Event :=
  match d.config.mitigation with
  | none => (d, [])
  | some (fba, dbd) =>
    let se := startLoop fba d [] d.hostFlags
    stopLoop dbd se.1 se.2 se.1.hostDeflags

/-- `CoResidencyDetector.__update_metrics`: the handler for a `SampleEvent`
payload, running phases (a)–(e) in order. Returns the new state together with
the list of emitted mitigation events; an uncaught Python exception is an
`.error`. -/
def Detector.update_metrics (d : Detector) (payload : List (String × List (String × Value))) :
    Except PyErr (Detector × List Event) :=
  match recordLoop d payload with
  | .error e => .error e
  | .ok d1 =>
    match (d1.update_global_metrics).update_host_deltas with
    | .error e => .error e
    | .ok d3 =>
      match d3.update_host_flags with
      | .error e => .error e
      | .ok d4 => .ok d4.dispatch

/-- The reconfigure loop of `__update_config`. -/
def reconfLoop (cfg : Config) :
    List (String × HostMetrics) → List (String × HostMetrics) →
    Except PyErr (List (String × HostMetrics))
  | store, [] => .ok store
  | store, p :: rest =>
    match p.2.reconfigure cfg.maxSamples cfg.samplesBeforeInclusion
        cfg.samplesBeforeExclusion cfg.normalizeSamples with
    | .error e => .error e
    | .ok hm' => reconfLoop cfg (updateA store p.1 hm') rest

/-- `CoResidencyDetector.__update_config`: the handler for a
`ConfigurationReloaded` event; replaces the configuration and reconfigures
every tracked host. -/
def Detector.update_config (d : Detector) (newCfg : Config) : Except PyErr Detector :=
  match reconfLoop newCfg d.hostMetrics d.hostMetrics with
  | .error e => .error e
  | .ok hms => .ok { d with config := newCfg, hostMetrics := hms }

/-- Run one sample batch, keeping the old state if an exception escaped
(used to write concrete reachable states compactly; a kept state after an
error never occurs in the scenarios below, which all assert success
explicitly or assert the error itself). -/
def stepOr (d : Detector) (payload : List (String × List (String × Value))) : Detector :=
  match d.update_metrics payload with
  | .ok r => r.1
  | .error _ => d

/-- Run one configuration reload, keeping the old state on an exception. -/
def cfgOr (d : Detector) (c : Config) : Detector :=
  match d.update_config c with
  | .ok d' => d'
  | .error _ => d

/-- JSON values, as far as the configuration extraction needs them. -/
inductive JVal where
  | jbool (b : Bool)
  | jint (n : ℤ)
  | jstr (s : String)
  | jobj (fields : List (String × JVal))
deriving Repr

/-- The state of a `ConfigurationManager.JSONParser` after its constructor
ran: `loadedJSON` is false when the MIME probe rejected the file, the file was
unreadable, or `json.load` raised `JSONDecodeError` (the error is logged and
swallowed); `config` is the parsed root object otherwise. -/
structure JSONParser where
  loadedJSON : Bool
  config : List (String × JVal)

/-- `JSONParser.__getitem__`: `None` (modelled `none`) when nothing was
loaded or the option is missing, the raw value otherwise. -/
def JSONParser.getitem (p : JSONParser) (name : String) : Option JVal :=
  if p.loadedJSON = false then none
  else
    match lookupA p.config name with
    | none => none
    | some v => some v

/-- Python truthiness of a possibly-`None` JSON value. -/
def truthy : Option JVal → Bool
  | none => false
  | some (.jbool b) => b
  | some (.jint n) => n != 0
  | some (.jstr s) => s != ""
  | some (.jobj l) => !l.isEmpty

/-- Python subscription `x[k]` on a possibly-`None` JSON value: `None` and
non-dict values raise `TypeError`, a missing key raises `KeyError`. -/
def subscript (x : Option JVal) (k : String) : Except PyErr JVal :=
  match x with
  | none => .error .typeError
  | some (.jobj l) =>
    match lookupA l k with
    | none => .error .keyError
    | some v => .ok v
  | some _ => .error .typeError

/-- Python iteration `for key in x`: `None`, bools and ints raise
`TypeError`; a dict yields its keys; a string yields its characters. -/
def iterKeys : Option JVal → Except PyErr (List String)
  | none => .error .typeError
  | some (.jobj l) => .ok (keysA l)
  | some (.jstr s) => .ok (s.toList.map (fun c => String.mk [c]))
  | some _ => .error .typeError

/-- The flat view `__build_configuration` constructs. `perf` holds the
flattened `Performance.*` keys copied to the top level of the view. -/
structure ViewDict where
  mitigation : Option (JVal × JVal)
  thresholds : List (String × JVal)
  eventNames : List (String × JVal)
  perf : List (String × JVal)
deriving Repr

/-- The `Mitigation` entry of the view's dict literal:
`None if not parser["EnableMitigation"] else {… parser["MitigationConfiguration"][…]["Value"] …}`.
Raised exceptions here abort the dict literal BEFORE `self.__configuration`
is reassigned. -/
def computeMitigation (p : JSONParser) : Except PyErr (Option (JVal × JVal)) :=
  if truthy (p.getitem "EnableMitigation") = false then .ok none
  else
    match subscript (p.getitem "MitigationConfiguration") "FlagsBeforeActivation" with
    | .error e => .error e
    | .ok fEntry =>
      match subscript (some fEntry) "Value" with
      | .error e => .error e
      | .ok f =>
        match subscript (p.getitem "MitigationConfiguration") "DeflagsBeforeDeactivation" with
        | .error e => .error e
        | .ok dEntry =>
          match subscript (some dEntry) "Value" with
          | .error e => .error e
          | .ok dd => .ok (some (f, dd))

/-- One of the three extraction loops of `__build_configuration`:
`for key in parser[sec]: out[key] = parser[sec][key]["Value"]`, stopping with
the partial accumulator at the first exception. -/
def fillFromSection (p : JSONParser) (sec : String) :
    List String → List (String × JVal) → List (String × JVal) × Option PyErr
  | [], acc => (acc, none)
  | k :: ks, acc =>
    match subscript (p.getitem sec) k with
    | .error e => (acc, some e)
    | .ok entry =>
      match subscript (some entry) "Value" with
      | .error e => (acc, some e)
      | .ok v => fillFromSection p sec ks (updateA acc k v)

/-- `ConfigurationManager.__build_configuration`. Takes the previously cached
view and returns the view stored afterwards together with the exception that
escaped, if any. The cached view is REPLACED by the skeleton dict literal as
soon as the literal evaluates, before any of the three loops runs; an
exception in a loop therefore leaves the partial skeleton in place. -/
def buildConfiguration (old : ViewDict) (p : JSONParser) : ViewDict × Option PyErr :=
  match computeMitigation p with
  | .error e => (old, some e)
  | .ok mit =>
    let v0 : ViewDict := { mitigation := mit, thresholds := [], eventNames := [], perf := [] }
    match iterKeys (p.getitem "Thresholds") with
    | .error e => (v0, some e)
    | .ok tks =>
      match fillFromSection p "Thresholds" tks [] with
      | (acc, some e) => ({ v0 with thresholds := acc }, some e)
      | (acc, none) =>
        let v1 := { v0 with thresholds := acc }
        match iterKeys (p.getitem "Performance") with
        | .error e => (v1, some e)
        | .ok pks =>
          match fillFromSection p "Performance" pks [] with
          | (acc2, some e) => ({ v1 with perf := acc2 }, some e)
          | (acc2, none) =>
            let v2 := { v1 with perf := acc2 }
            match iterKeys (p.getitem "EventNames") with
            | .error e => (v2, some e)
            | .ok eks =>
              match fillFromSection p "EventNames" eks [] with
              | (acc3, some e) => ({ v2 with eventNames := acc3 }, some e)
              | (acc3, none) => ({ v2 with eventNames := acc3 }, none)

/-- `ConfigurationManager.on_modified` for an event whose path matches the
watched file: rebuild the view, then emit `ConfigurationReloaded` with the
new view — the emit is reached only if no exception escaped the rebuild.
Returns (stored view afterwards, whether the reload event was emitted,
escaped exception if any). -/
def onModified (cached : ViewDict) (p : JSONParser) : ViewDict × Bool × Option PyErr :=
  match buildConfiguration cached p with
  | (v, some e) => (v, false, some e)
  | (v, none) => (v, true, none)

/-- `SingletonMeta.__call__` for one class: if no instance is cached,
construct one from the arguments and cache it; otherwise return the cached
instance untouched (`__init__` is not re-run, the arguments are ignored). -/
def singletonCall {α β : Type} (make : α → β) (cache : Option β) (args : α) : β × Option β :=
  match cache with
  | some inst => (inst, some inst)
  | none =>
    let inst := make args
    (inst, some inst)

/-- A sequence of constructor calls against the singleton cache, returning
the instance each call handed back. -/
def singletonRun {α β : Type} (make : α → β) : Option β → List α → List β
  | _, [] => []
  | cache, a :: rest =>
    let r := singletonCall make cache a
    r.1 :: singletonRun make r.2 rest

/-! ### Association-list lemmas -/

theorem lookupA_updateA {α : Type} (l : List (String × α)) (k : String) (v : α) (k' : String) :
    lookupA (updateA l k v) k' = if k' = k then some v else lookupA l k' := by
  induction l with
  | nil =>
    simp only [updateA, lookupA]
    by_cases h : k = k'
    · simp [h]
    · have h2 : ¬ k' = k := fun hh => h hh.symm
      simp [h, h2]
  | cons p rest ih =>
    obtain ⟨kh, vh⟩ := p
    simp only [updateA]
    by_cases h1 : kh = k
    · rw [if_pos h1]
      simp only [lookupA]
      by_cases h2 : k' = k
      · rw [if_pos (h1.trans h2.symm), if_pos h2]
      · have hne : ¬ kh = k' := fun hh => h2 (hh.symm.trans h1)
        rw [if_neg hne, if_neg h2, if_neg hne]
    · rw [if_neg h1]
      simp only [lookupA]
      by_cases h3 : kh = k'
      · have h4 : ¬ k' = k := fun hh => h1 (h3.trans hh)
        rw [if_pos h3, if_neg h4, if_pos h3]
      · rw [if_neg h3, ih]
        by_cases h2 : k' = k
        · simp [h2]
        · simp [h2, h3]

theorem mem_keysA_iff_isSome {α : Type} (l : List (String × α)) (k : String) :
    k ∈ keysA l ↔ (lookupA l k).isSome := by
  induction l with
  | nil => simp [keysA, lookupA]
  | cons p rest ih =>
    simp only [keysA, List.map_cons, List.mem_cons, lookupA] at ih ⊢
    by_cases h : p.1 = k
    · simp [h]
    · rw [if_neg h]
      constructor
      · rintro (h2 | h2)
        · exact absurd h2.symm h
        · exact ih.1 h2
      · intro h2
        exact Or.inr (ih.2 h2)

theorem lookupA_eq_none_of_not_mem {α : Type} {l : List (String × α)} {k : String}
    (h : k ∉ keysA l) : lookupA l k = none := by
  cases hl : lookupA l k with
  | none => rfl
  | some v => exact absurd ((mem_keysA_iff_isSome l k).2 (by simp [hl])) h

theorem lookupA_isSome_of_mem {α : Type} {l : List (String × α)} {k : String}
    (h : k ∈ keysA l) : (lookupA l k).isSome := (mem_keysA_iff_isSome l k).1 h

theorem keysA_updateA {α : Type} (l : List (String × α)) (k : String) (v : α) :
    keysA (updateA l k v) = if k ∈ keysA l then keysA l else keysA l ++ [k] := by
  induction l with
  | nil => simp [updateA, keysA]
  | cons p rest ih =>
    obtain ⟨kh, vh⟩ := p
    simp only [updateA]
    by_cases h1 : kh = k
    · rw [if_pos h1]
      have hk : k ∈ keysA ((kh, vh) :: rest) := by simp [keysA, h1.symm]
      rw [if_pos hk]
      simp [keysA]
    · rw [if_neg h1]
      by_cases h2 : k ∈ keysA rest
      · have hk : k ∈ keysA ((kh, vh) :: rest) := by simp [keysA]; right; simpa [keysA] using h2
        rw [if_pos hk]
        simp only [keysA, List.map_cons] at ih ⊢
        rw [ih, if_pos (by simpa [keysA] using h2)]
      · have hk : k ∉ keysA ((kh, vh) :: rest) := by
          simp only [keysA, List.map_cons, List.mem_cons]
          rintro (h3 | h3)
          · exact h1 h3.symm
          · exact h2 (by simpa [keysA] using h3)
        rw [if_neg hk]
        simp only [keysA, List.map_cons] at ih ⊢
        rw [ih, if_neg (by simpa [keysA] using h2)]
        simp

theorem keysA_updateA_of_mem {α : Type} {l : List (String × α)} {k : String} (v : α)
    (h : k ∈ keysA l) : keysA (updateA l k v) = keysA l := by
  simp [keysA_updateA, h]

theorem nodup_keysA_updateA {α : Type} {l : List (String × α)} (k : String) (v : α)
    (h : (keysA l).Nodup) : (keysA (updateA l k v)).Nodup := by
  rw [keysA_updateA]
  by_cases hm : k ∈ keysA l
  · rwa [if_pos hm]
  · rw [if_neg hm]
    refine List.Nodup.append h (List.nodup_singleton k) ?_
    intro a ha hb
    rw [List.mem_singleton] at hb
    exact hm (hb ▸ ha)

theorem lookupA_of_nodup_mem {α : Type} {l : List (String × α)} {p : String × α}
    (hnd : (keysA l).Nodup) (hp : p ∈ l) : lookupA l p.1 = some p.2 := by
  induction l with
  | nil => cases hp
  | cons q rest ih =>
    rcases List.mem_cons.1 hp with h | h
    · subst h
      simp [lookupA]
    · have hnd2 : (q.1 :: rest.map Prod.fst).Nodup := by simpa [keysA] using hnd
      have hnd3 := List.nodup_cons.1 hnd2
      have hne : q.1 ≠ p.1 := by
        intro hq
        apply hnd3.1
        rw [hq]
        exact List.mem_map.2 ⟨p, h, rfl⟩
      simp only [lookupA, if_neg hne]
      exact ih (by simpa [keysA] using hnd3.2) h

theorem lookupA_map_values {α β : Type} (f : α → β) (l : List (String × α)) (k : String) :
    lookupA (l.map (fun q => (q.1, f q.2))) k = (lookupA l k).map f := by
  induction l with
  | nil => simp [lookupA]
  | cons p rest ih =>
    by_cases h : p.1 = k <;> simp [lookupA, h, ih]

/-! ### Concrete reachable scenarios

Each scenario is an explicit run of the embedded detector from its initial
state, used by the claim theorems below. -/

/-- Extract the host state from a successful computation (the fallback is
never reached in the scenarios, which also pin the success itself). -/
def okHM (fallback : HostMetrics) : Except PyErr HostMetrics → HostMetrics
  | .ok h => h
  | .error _ => fallback

/-- Scenario for the window-length invariant: a host constructed with first
sample `{Activity: 4}` under `MaxSamples = 3`, thresholds 1/1, raw
preference. -/
def sc1h0 : HostMetrics :=
  okHM
    { metrics := [], normalized := [], maxSamples := 0, currentSamples := 0,
      activityThreshold := 0, inactivityThreshold := 0, prefNormalized := false,
      deltas := [], active := false, actAliased := false }
    (HostMetrics.init [("Activity", 4)] 3 1 1 false)

/-- After `record_sample({Activity: 5})`. -/
def sc1h1 : HostMetrics := okHM sc1h0 (sc1h0.record_sample [("Activity", 5)])

/-- After a further `record_sample({Activity: 7})`. -/
def sc1h2 : HostMetrics := okHM sc1h1 (sc1h1.record_sample [("Activity", 7)])

/-- Configuration for the reconfigure scenario: `MaxSamples = 3`. -/
def sc2cfg : Config :=
  { maxSamples := 3, samplesBeforeInclusion := 1, samplesBeforeExclusion := 1,
    normalizeSamples := false, thresholds := [("Activity", 1)], mitigation := none }

/-- The same configuration reloaded with `MaxSamples = 2`. -/
def sc2cfgLow : Config := { sc2cfg with maxSamples := 2 }

/-- Detector after three single-host sample batches under `sc2cfg`. -/
def sc2d3 : Detector :=
  stepOr (stepOr (stepOr (Detector.init sc2cfg)
    [("A", [("Activity", 4)])]) [("A", [("Activity", 5)])]) [("A", [("Activity", 7)])]

/-- After the `ConfigurationReloaded` event lowering `MaxSamples` to 2. -/
def sc2d4 : Detector := cfgOr sc2d3 sc2cfgLow

/-- After one more sample batch following the reload. -/
def sc2d5 : Detector := stepOr sc2d4 [("A", [("Activity", 3)])]

/-- Configuration for the empty-batch scenario: three hosts, mitigation
enabled with `FlagsBeforeActivation = 1`. -/
def sc3cfg : Config :=
  { maxSamples := 3, samplesBeforeInclusion := 1, samplesBeforeExclusion := 1,
    normalizeSamples := false,
    thresholds := [("Activity", 3/10), ("Cpu", 4/5)],
    mitigation := some (1, 100) }

/-- Sample payload: host `A` deviates, hosts `B` and `C` agree. -/
def sc3pay : List (String × List (String × Value)) :=
  [("A", [("Activity", 4), ("Cpu", 100)]),
   ("B", [("Activity", 2), ("Cpu", 10)]),
   ("C", [("Activity", 2), ("Cpu", 10)])]

/-- Detector after two identical three-host batches: `A` has just been
mitigated, `B` and `C` remain benign. -/
def sc3d2 : Detector := stepOr (stepOr (Detector.init sc3cfg) sc3pay) sc3pay

/-- The state produced by processing an empty sample batch from `sc3d2`. -/
def sc3d3 : Detector := stepOr sc3d2 []

/-- Configuration for the empty-baseline scenario: two hosts that flag in
lockstep and get mitigated together. -/
def sc5cfg : Config :=
  { maxSamples := 3, samplesBeforeInclusion := 1, samplesBeforeExclusion := 1,
    normalizeSamples := false,
    thresholds := [("Activity", 3/10), ("Cpu", 4/5)],
    mitigation := some (1, 100) }

/-- Two-host payload with symmetric per-metric deviations. -/
def sc5pay : List (String × List (String × Value)) :=
  [("A", [("Activity", 4), ("Cpu", 100)]),
   ("B", [("Activity", 2), ("Cpu", 10)])]

/-- Detector after two such batches: both hosts are mitigated and still
active, so no benign host remains. -/
def sc5d2 : Detector := stepOr (stepOr (Detector.init sc5cfg) sc5pay) sc5pay

/-- A populated configuration view cached by the `ConfigurationManager`. -/
def sc4oldView : ViewDict :=
  { mitigation := none
    thresholds := [("Cpu", JVal.jint 1)]
    eventNames := [("SampleEvent", JVal.jstr "sample")]
    perf := [("MaxSamples", JVal.jint 3)] }

/-- The `JSONParser` state after attempting to load malformed JSON:
`json.load` raised `JSONDecodeError`, which the constructor logged and
swallowed, leaving `loaded_json = False`. -/
def sc4badParser : JSONParser := { loadedJSON := false, config := [] }

/-! ### Claim theorems: concrete evaluations -/

/-- C1: the claimed invariant
`len(raw[m]) == len(normalized[m]) == currentSamples` fails on the code.
After construction with `{Activity: 4}` and two `record_sample` calls
(`{Activity: 5}`, then `{Activity: 7}`), the raw `Activity` deque holds four
entries `[4, 5, 7, 2]` — the first difference 2 was appended to the raw deque
through the `normalized['Activity'] = metrics['Activity']` alias — while
`currentSamples = 3`. (The `normalized = raw` half of the claim does hold,
trivially, through the same alias.) -/
theorem claim_C1_code_bug :
    (getDA sc1h2.metrics "Activity" []).length = 4 ∧
    sc1h2.currentSamples = 3 ∧
    getDA sc1h2.metrics "Activity" [] = [4, 5, 7, 2] ∧
    sc1h2.normLookup "Activity" = lookupA sc1h2.metrics "Activity" := by
  refine ⟨?_, ?_, ?_, ?_⟩ <;> with_unfolding_all rfl

/-- C2: the claimed invariant `currentSamples ≤ MaxSamples` fails after a
`ConfigurationReloaded` event lowers `MaxSamples`: `__adjust_sample_size`
never clamps `currentSamples`. Concretely, after three batches under
`MaxSamples = 3` host `A` has `currentSamples = 3`; reloading with
`MaxSamples = 2` leaves `currentSamples = 3 > 2`, and the next batch even
increments it to 4 (since `currentSamples == maxSamples` is now false). -/
theorem claim_C2_code_bug :
    sc2d3.update_config sc2cfgLow = .ok sc2d4 ∧
    (lookupA sc2d4.hostMetrics "A").map (fun h => (h.currentSamples, h.maxSamples)) =
      some (3, 2) ∧
    sc2d4.update_metrics [("A", [("Activity", 3)])] = .ok (sc2d5, []) ∧
    (lookupA sc2d5.hostMetrics "A").map (fun h => (h.currentSamples, h.maxSamples)) =
      some (4, 2) := by
  refine ⟨?_, ?_, ?_, ?_⟩ <;> with_unfolding_all rfl

/-- C3 counterexample: an empty sample batch is NOT strictly a no-op.
The state `sc3d2` is reachable (two sample batches from the initial state,
shown here explicitly); host `A` has just been mitigated, after
`globalMetrics` was computed with `A` still benign. The empty batch then
recomputes `globalMetrics` without `A` (changing it from
`{Activity: 8/3, Cpu: 40}` to `{Activity: 2, Cpu: 10}`) and, since `A` still
breaches all thresholds while mitigated, writes `hostDeflags[A] := 0`,
changing `hostDeflags` from `{}` to `{A: 0}`. -/
theorem claim_C3_counterexample :
    (Detector.init sc3cfg).update_metrics sc3pay = .ok (stepOr (Detector.init sc3cfg) sc3pay, []) ∧
    (stepOr (Detector.init sc3cfg) sc3pay).update_metrics sc3pay =
      .ok (sc3d2, [Event.startMitigation "A"]) ∧
    sc3d2.hostDeflags = [] ∧
    sc3d2.globalMetrics = [("Activity", 8/3), ("Cpu", 40)] ∧
    sc3d2.update_metrics [] = .ok (sc3d3, []) ∧
    sc3d3.hostDeflags = [("A", 0)] ∧
    sc3d3.globalMetrics = [("Activity", 2), ("Cpu", 10)] := by
  refine ⟨?_, ?_, ?_, ?_, ?_, ?_, ?_⟩ <;> with_unfolding_all rfl

/-- C4: on a malformed-JSON reload the previously cached view does NOT
remain in effect. `__build_configuration` replaces the cached view with the
skeleton `{Mitigation: None, Thresholds: {}, EventNames: {}}` as soon as the
dict literal evaluates, and then `for key in parser["Thresholds"]` iterates
`None` and raises `TypeError`. The reload event is indeed not emitted (the
emit line is never reached), but the cached view has been clobbered. -/
theorem claim_C4_code_bug :
    onModified sc4oldView sc4badParser =
      ({ mitigation := none, thresholds := [], eventNames := [], perf := [] },
        false, some PyErr.typeError) ∧
    sc4oldView.thresholds = [("Cpu", JVal.jint 1)] ∧
    ((onModified sc4oldView sc4badParser).1.thresholds = ([] : List (String × JVal))) := by
  refine ⟨?_, ?_, ?_⟩ <;> with_unfolding_all rfl

/-- C5: the per-host delta computation is NOT total. In the reachable state
`sc5d2` both hosts have been mitigated (each start event shown explicitly)
while remaining active; the next batch — here an empty one — finds no benign
host, leaves `globalMetrics` empty, and `update_deltas` then raises an
uncaught `KeyError` on the first metric lookup instead of skipping it. -/
theorem claim_C5_code_bug :
    (Detector.init sc5cfg).update_metrics sc5pay = .ok (stepOr (Detector.init sc5cfg) sc5pay, []) ∧
    (stepOr (Detector.init sc5cfg) sc5pay).update_metrics sc5pay =
      .ok (sc5d2, [Event.startMitigation "A", Event.startMitigation "B"]) ∧
    sc5d2.mitigatedHostIds = ["A", "B"] ∧
    sc5d2.update_metrics [] = .error .keyError := by
  refine ⟨?_, ?_, ?_, ?_⟩ <;> with_unfolding_all rfl

/-! ### C10: singleton semantics -/

theorem singletonRun_cached {α β : Type} (make : α → β) (inst : β) :
    ∀ (l : List α), singletonRun make (some inst) l = l.map (fun _ => inst) := by
  intro l
  induction l with
  | nil => rfl
  | cons a rest ih => simp [singletonRun, singletonCall, ih]

/-- C10: every construction of a `SingletonMeta` class after the first
returns the instance created by the first construction, and the arguments of
the later constructions have no effect: stated for `CoResidencyDetector`
construction (`Detector.init`) and generically for any class under
`SingletonMeta` (which covers `EventManager` as well). -/
theorem claim_C10_singleton :
    (∀ (cfg0 : Config) (rest : List Config),
      singletonRun Detector.init none (cfg0 :: rest) =
        (cfg0 :: rest).map (fun _ => Detector.init cfg0)) ∧
    (∀ (α β : Type) (make : α → β) (a0 : α) (rest : List α),
      singletonRun make none (a0 :: rest) =
        (a0 :: rest).map (fun _ => make a0)) := by
  constructor
  · intro cfg0 rest
    simp [singletonRun, singletonCall, singletonRun_cached]
  · intro α β make a0 rest
    simp [singletonRun, singletonCall, singletonRun_cached]

/-! ### C8: hysteresis of the `active` bit -/

/-- Fields of `HostMetrics` untouched by the deque operations. -/
def ctrlEq (a b : HostMetrics) : Prop :=
  a.active = b.active ∧ a.activityThreshold = b.activityThreshold ∧
  a.inactivityThreshold = b.inactivityThreshold

theorem ctrlEq_refl (a : HostMetrics) : ctrlEq a a := ⟨rfl, rfl, rfl⟩

theorem ctrlEq_trans {a b c : HostMetrics} (h1 : ctrlEq a b) (h2 : ctrlEq b c) : ctrlEq a c :=
  ⟨h1.1.trans h2.1, h1.2.1.trans h2.2.1, h1.2.2.trans h2.2.2⟩

theorem normSet_ctrlEq (hm : HostMetrics) (k : String) (v : List Value) :
    ctrlEq (hm.normSet k v) hm := by
  unfold HostMetrics.normSet
  split <;> exact ⟨rfl, rfl, rfl⟩

theorem popNorm_ctrlEq {hm hm' : HostMetrics} {k : String}
    (h : popNorm hm k = .ok hm') : ctrlEq hm' hm := by
  unfold popNorm at h
  split at h
  · cases h
  · cases h
  · cases h
    exact normSet_ctrlEq _ _ _

theorem popleftStep_ctrlEq {hm hm' : HostMetrics} {k : String}
    (h : popleftStep hm k = .ok hm') : ctrlEq hm' hm := by
  unfold popleftStep at h
  split at h
  · cases h
  · cases h
  · exact ctrlEq_trans (popNorm_ctrlEq h) ⟨rfl, rfl, rfl⟩

theorem appendNorm_ctrlEq {hm hm' : HostMetrics} {k : String} {p? : Option Value} {v : Value}
    (h : appendNorm hm k p? v = .ok hm') : ctrlEq hm' hm := by
  unfold appendNorm at h
  split at h
  · cases h
  · split at h
    · cases h
    · cases h
      exact normSet_ctrlEq _ _ _

theorem appendStep_ctrlEq {hm hm' : HostMetrics} {k : String} {v : Value}
    (h : appendStep hm k v = .ok hm') : ctrlEq hm' hm := by
  unfold appendStep at h
  split at h
  · cases h
  · exact ctrlEq_trans (appendNorm_ctrlEq h) ⟨rfl, rfl, rfl⟩

theorem popLoop_ctrlEq : ∀ (sample : List (String × Value)) (hm hm' : HostMetrics),
    popLoop hm sample = .ok hm' → ctrlEq hm' hm := by
  intro sample
  induction sample with
  | nil => intro hm hm' h; cases h; exact ctrlEq_refl _
  | cons p rest ih =>
    intro hm hm' h
    unfold popLoop at h
    split at h
    · cases h
    · next hm1 hs => exact ctrlEq_trans (ih hm1 hm' h) (popleftStep_ctrlEq hs)

theorem appendLoop_ctrlEq : ∀ (sample : List (String × Value)) (hm hm' : HostMetrics),
    appendLoop hm sample = .ok hm' → ctrlEq hm' hm := by
  intro sample
  induction sample with
  | nil => intro hm hm' h; cases h; exact ctrlEq_refl _
  | cons p rest ih =>
    intro hm hm' h
    unfold appendLoop at h
    split at h
    · cases h
    · next hm1 hs => exact ctrlEq_trans (ih hm1 hm' h) (appendStep_ctrlEq hs)

theorem recordWindow_ctrlEq {hm hm' : HostMetrics} {sample : List (String × Value)}
    (h : recordWindow hm sample = .ok hm') : ctrlEq hm' hm := by
  unfold recordWindow at h
  split at h
  · exact popLoop_ctrlEq sample hm hm' h
  · cases h
    exact ⟨rfl, rfl, rfl⟩

/-- Fields `adjustActive` never touches. -/
theorem adjustActive_fields (h : HostMetrics) :
    (HostMetrics.adjustActive h).metrics = h.metrics ∧
    (HostMetrics.adjustActive h).normalized = h.normalized ∧
    (HostMetrics.adjustActive h).currentSamples = h.currentSamples ∧
    (HostMetrics.adjustActive h).deltas = h.deltas ∧
    (HostMetrics.adjustActive h).actAliased = h.actAliased ∧
    (HostMetrics.adjustActive h).activityThreshold = h.activityThreshold ∧
    (HostMetrics.adjustActive h).inactivityThreshold = h.inactivityThreshold := by
  unfold HostMetrics.adjustActive
  by_cases h1 : (h.activityThreshold : ℚ) < pySum (getDA h.metrics "Activity" [])
  · simp [h1]
  · by_cases h2 : pySum (getDA h.metrics "Activity" []) < (h.inactivityThreshold : ℚ) <;>
      simp [h1, h2]

/-- How `adjustActive` sets the `active` bit, as a function of the activity
sum against the two thresholds. -/
theorem adjustActive_active (h : HostMetrics) :
    (((h.activityThreshold : ℚ) < pySum (getDA h.metrics "Activity" []) →
      (HostMetrics.adjustActive h).active = true)) ∧
    ((¬ (h.activityThreshold : ℚ) < pySum (getDA h.metrics "Activity" []) →
      pySum (getDA h.metrics "Activity" []) < (h.inactivityThreshold : ℚ) →
      (HostMetrics.adjustActive h).active = false)) ∧
    ((¬ (h.activityThreshold : ℚ) < pySum (getDA h.metrics "Activity" []) →
      ¬ pySum (getDA h.metrics "Activity" []) < (h.inactivityThreshold : ℚ) →
      (HostMetrics.adjustActive h).active = h.active)) := by
  unfold HostMetrics.adjustActive
  by_cases h1 : (h.activityThreshold : ℚ) < pySum (getDA h.metrics "Activity" [])
  · simp [h1]
  · by_cases h2 : pySum (getDA h.metrics "Activity" []) < (h.inactivityThreshold : ℚ) <;>
      simp [h1, h2]

/-- Decomposition of a successful `record_sample` into its parts. -/
theorem record_sample_shape {hm hm' : HostMetrics} {sample : List (String × Value)}
    (h : hm.record_sample sample = .ok hm') :
    ∃ hmPre : HostMetrics,
      hm' = HostMetrics.adjustActive hmPre ∧ ctrlEq hmPre hm := by
  unfold HostMetrics.record_sample at h
  split at h
  · cases h
  · next hm1 hw =>
    split at h
    · cases h
    · next hm2 ha =>
      unfold recordFinish at h
      split at h
      · cases h
      · next act hact =>
        cases h
        refine ⟨_, rfl, ?_⟩
        exact ctrlEq_trans ⟨rfl, rfl, rfl⟩
          (ctrlEq_trans (appendLoop_ctrlEq sample hm1 hm2 ha) (recordWindow_ctrlEq hw))

/-- The seeding loop of the constructor leaves every non-store field of the
base record unchanged. -/
theorem foldl_seedStep_fields : ∀ (l : List (String × Value)) (b : HostMetrics),
    (l.foldl seedStep b).active = b.active ∧
    (l.foldl seedStep b).activityThreshold = b.activityThreshold ∧
    (l.foldl seedStep b).inactivityThreshold = b.inactivityThreshold ∧
    (l.foldl seedStep b).currentSamples = b.currentSamples ∧
    (l.foldl seedStep b).actAliased = b.actAliased ∧
    (l.foldl seedStep b).deltas = b.deltas ∧
    (l.foldl seedStep b).prefNormalized = b.prefNormalized ∧
    (l.foldl seedStep b).maxSamples = b.maxSamples := by
  intro l
  induction l with
  | nil => intro b; exact ⟨rfl, rfl, rfl, rfl, rfl, rfl, rfl, rfl⟩
  | cons p rest ih =>
    intro b
    simpa [seedStep] using ih (seedStep b p)

/-- C8: hysteresis of the per-host `active` bit. After every successful
`record_sample`, letting `s = sum(raw[Activity])` in the post-state:
the bit keeps its prior value whenever
`inactivityThreshold ≤ s ≤ activityThreshold`; it can have flipped to true
only when `s > activityThreshold`, and to false only when
`s < inactivityThreshold`. At construction the same holds with prior value
`False`: the bit is true only when `s > activityThreshold`, and inside the
band it is false. -/
theorem claim_C8_hysteresis :
    (∀ (hm : HostMetrics) (sample : List (String × Value)) (hm' : HostMetrics),
      hm.record_sample sample = .ok hm' →
      (((hm'.inactivityThreshold : ℚ) ≤ pySum (getDA hm'.metrics "Activity" []) →
        pySum (getDA hm'.metrics "Activity" []) ≤ (hm'.activityThreshold : ℚ) →
        hm'.active = hm.active) ∧
      (hm.active = false → hm'.active = true →
        (hm'.activityThreshold : ℚ) < pySum (getDA hm'.metrics "Activity" [])) ∧
      (hm.active = true → hm'.active = false →
        pySum (getDA hm'.metrics "Activity" []) < (hm'.inactivityThreshold : ℚ)))) ∧
    (∀ (im : List (String × Value)) (mx a i : ℤ) (pf : Bool) (hm0 : HostMetrics),
      HostMetrics.init im mx a i pf = .ok hm0 →
      ((hm0.active = true →
        (hm0.activityThreshold : ℚ) < pySum (getDA hm0.metrics "Activity" [])) ∧
      ((hm0.inactivityThreshold : ℚ) ≤ pySum (getDA hm0.metrics "Activity" []) →
        pySum (getDA hm0.metrics "Activity" []) ≤ (hm0.activityThreshold : ℚ) →
        hm0.active = false))) := by
  constructor
  · intro hm sample hm' h
    obtain ⟨hmPre, rfl, hctrl⟩ := record_sample_shape h
    obtain ⟨hmet, -, -, -, -, hat, hit⟩ := adjustActive_fields hmPre
    obtain ⟨ha1, ha2, ha3⟩ := adjustActive_active hmPre
    rw [hmet, hat, hit]
    refine ⟨?_, ?_, ?_⟩
    · intro hlo hhi
      have h1 : ¬ (hmPre.activityThreshold : ℚ) < pySum (getDA hmPre.metrics "Activity" []) :=
        not_lt.2 hhi
      have h2 : ¬ pySum (getDA hmPre.metrics "Activity" []) < (hmPre.inactivityThreshold : ℚ) :=
        not_lt.2 hlo
      rw [ha3 h1 h2, hctrl.1]
    · intro hprev hnow
      by_contra hnot
      by_cases h2 : pySum (getDA hmPre.metrics "Activity" []) < (hmPre.inactivityThreshold : ℚ)
      · rw [ha2 hnot h2] at hnow
        cases hnow
      · rw [ha3 hnot h2, hctrl.1, hprev] at hnow
        cases hnow
    · intro hprev hnow
      by_contra hnot
      by_cases h1 : (hmPre.activityThreshold : ℚ) < pySum (getDA hmPre.metrics "Activity" [])
      · rw [ha1 h1] at hnow
        cases hnow
      · rw [ha3 h1 hnot, hctrl.1, hprev] at hnow
        cases hnow
  · intro im mx a i pf hm0 h
    unfold HostMetrics.init at h
    split at h
    · cases h
      set sd := im.foldl seedStep (HostMetrics.base mx a i pf) with hsd
      obtain ⟨hmet, -, -, -, -, hat, hit⟩ := adjustActive_fields sd
      obtain ⟨ha1, ha2, ha3⟩ := adjustActive_active sd
      have hact : sd.active = false := (foldl_seedStep_fields im _).1
      rw [hmet, hat, hit]
      constructor
      · intro hnow
        by_contra hnot
        by_cases h2 : pySum (getDA sd.metrics "Activity" []) < (sd.inactivityThreshold : ℚ)
        · rw [ha2 hnot h2] at hnow
          cases hnow
        · rw [ha3 hnot h2, hact] at hnow
          cases hnow
      · intro hlo hhi
        have h1 : ¬ (sd.activityThreshold : ℚ) < pySum (getDA sd.metrics "Activity" []) :=
          not_lt.2 hhi
        have h2 : ¬ pySum (getDA sd.metrics "Activity" []) < (sd.inactivityThreshold : ℚ) :=
          not_lt.2 hlo
        rw [ha3 h1 h2, hact]
    · cases h

/-- Concrete host used to witness the hysteresis band of C8. -/
def sc8hm : HostMetrics :=
  { metrics := [("Activity", [2])]
    normalized := [("Activity", [2])]
    maxSamples := 5
    currentSamples := 1
    activityThreshold := 10
    inactivityThreshold := 1
    prefNormalized := false
    deltas := []
    active := false
    actAliased := false }

/-- The result of recording `{Activity: 3}` on `sc8hm` (sum becomes 5, inside
the band `[1, 10]`). -/
def sc8hm2 : HostMetrics := okHM sc8hm (sc8hm.record_sample [("Activity", 3)])

/-- Witness for C8: a concrete `record_sample` whose activity sum lands in
the hysteresis band, where the theorem forces the bit to be retained. -/
theorem claim_C8_hysteresis_witness : sc8hm2.active = sc8hm.active :=
  (claim_C8_hysteresis.1 sc8hm [("Activity", 3)] sc8hm2
    (by with_unfolding_all rfl)).1
    (by with_unfolding_all decide) (by with_unfolding_all decide)

/-! ### C7: global baseline recomputation -/


def benignHosts (mit : List String) (l : List (String × HostMetrics)) :
    List (String × HostMetrics) :=
  l.filter (fun p => !(decide (p.1 ∈ mit) || !p.2.active))

theorem getDA_eq_zero_of_not_mem {l : List (String × Value)} {k : String}
    (h : k ∉ keysA l) : getDA l k 0 = 0 := by
  simp [getDA, lookupA_eq_none_of_not_mem h]

theorem foldl_updateA_fun_lookup (f : String → Value) :
    ∀ (keys : List String) (acc : List (String × Value)) (k : String),
    lookupA (keys.foldl (fun rep k' => updateA rep k' (f k')) acc) k =
      if k ∈ keys then some (f k) else lookupA acc k := by
  intro keys
  induction keys with
  | nil => intro acc k; simp
  | cons k0 rest ih =>
    intro acc k
    rw [List.foldl_cons, ih]
    by_cases hmem : k ∈ rest
    · rw [if_pos hmem, if_pos (List.mem_cons.2 (Or.inr hmem))]
    · by_cases hk : k = k0
      · subst hk
        rw [if_neg hmem, if_pos (List.mem_cons_self _ _)]
        simp [lookupA_updateA]
      · rw [if_neg hmem, if_neg (by simp [List.mem_cons, hk, hmem])]
        simp [lookupA_updateA, hk]

theorem foldl_updateA_fun_nodup (f : String → Value) :
    ∀ (keys : List String) (acc : List (String × Value)),
    (keysA acc).Nodup → (keysA (keys.foldl (fun rep k' => updateA rep k' (f k')) acc)).Nodup := by
  intro keys
  induction keys with
  | nil => intro acc h; simpa using h
  | cons k0 rest ih =>
    intro acc h
    rw [List.foldl_cons]
    exact ih _ (nodup_keysA_updateA k0 (f k0) h)

/-- Pointwise description of `get_metrics`: for every key of the raw store,
the report holds `round(sum(chosenSeq) / currentSamples)`. -/
theorem get_metrics_lookup (hm : HostMetrics) (k : String) :
    lookupA hm.get_metrics k =
      if k ∈ keysA hm.metrics then
        some (((pyRound (pySum (hm.chosenSeq k) / (hm.currentSamples : ℚ)) : ℤ) : ℚ))
      else none := by
  unfold HostMetrics.get_metrics
  rw [foldl_updateA_fun_lookup
    (fun k' => ((pyRound (pySum (hm.chosenSeq k') / (hm.currentSamples : ℚ)) : ℤ) : ℚ))]
  by_cases h : k ∈ keysA hm.metrics <;> simp [h, lookupA]

theorem get_metrics_keys_nodup (hm : HostMetrics) : (keysA hm.get_metrics).Nodup := by
  unfold HostMetrics.get_metrics
  exact foldl_updateA_fun_nodup _ (keysA hm.metrics) [] (by simp [keysA])

theorem globalAddReport_lookup (rep : List (String × Value)) (k : String) :
    ∀ g : List (String × Value), (keysA rep).Nodup →
    lookupA (globalAddReport g rep) k =
      if k ∈ keysA rep then some (getDA g k 0 + getDA rep k 0)
      else lookupA g k := by
  induction rep with
  | nil => intro g _; simp [globalAddReport, keysA]
  | cons q rest ih =>
    intro g hrep
    have h0 : keysA (q :: rest) = q.1 :: keysA rest := rfl
    rw [h0] at hrep
    have hq : q.1 ∉ keysA rest := (List.nodup_cons.1 hrep).1
    have hnd : (keysA rest).Nodup := (List.nodup_cons.1 hrep).2
    have hstep : globalAddReport g (q :: rest) =
        globalAddReport (updateA g q.1 (getDA g q.1 0 + q.2)) rest := by
      simp [globalAddReport]
    rw [hstep, ih _ hnd, h0]
    by_cases hk : k = q.1
    · subst hk
      rw [if_neg hq, if_pos (List.mem_cons_self _ _)]
      simp [lookupA_updateA, getDA, lookupA]
    · have hqk : ¬ q.1 = k := fun hh => hk hh.symm
      have hmemiff : k ∈ q.1 :: keysA rest ↔ k ∈ keysA rest := by
        simp [List.mem_cons, hk]
      by_cases hmem : k ∈ keysA rest
      · rw [if_pos hmem, if_pos (hmemiff.2 hmem)]
        have hg : getDA (updateA g q.1 (getDA g q.1 0 + q.2)) k 0 = getDA g k 0 := by
          simp [getDA, lookupA_updateA, hk]
        have hr : getDA (q :: rest) k 0 = getDA rest k 0 := by
          simp [getDA, lookupA, hqk]
        rw [hg, hr]
      · rw [if_neg hmem, if_neg (fun hh => hmem (hmemiff.1 hh))]
        simp [lookupA_updateA, hk]

theorem benignHosts_cons_skip {mit : List String} {p : String × HostMetrics}
    (l : List (String × HostMetrics)) (h : p.1 ∈ mit ∨ p.2.active = false) :
    benignHosts mit (p :: l) = benignHosts mit l := by
  unfold benignHosts
  rw [List.filter_cons]
  have : (!(decide (p.1 ∈ mit) || !p.2.active)) = false := by
    rcases h with h | h
    · simp [h]
    · simp [h]
  rw [this]
  simp

theorem benignHosts_cons_keep {mit : List String} {p : String × HostMetrics}
    (l : List (String × HostMetrics)) (h : ¬(p.1 ∈ mit ∨ p.2.active = false)) :
    benignHosts mit (p :: l) = p :: benignHosts mit l := by
  unfold benignHosts
  rw [List.filter_cons]
  push_neg at h
  have hb : p.2.active = true := by
    cases hact : p.2.active
    · exact absurd hact h.2
    · rfl
  have : (!(decide (p.1 ∈ mit) || !p.2.active)) = true := by
    simp [h.1, hb]
  rw [this]
  simp

theorem sum_reports_zero {mit : List String} {k : String} (l : List (String × HostMetrics))
    (h : (benignHosts mit l).any (fun p => decide (k ∈ keysA p.2.get_metrics)) = false) :
    ((benignHosts mit l).map (fun p => getDA p.2.get_metrics k 0)).sum = 0 := by
  apply List.sum_eq_zero
  intro x hx
  rcases List.mem_map.1 hx with ⟨p, hp, rfl⟩
  have : ¬ (k ∈ keysA p.2.get_metrics) := by
    intro hk
    have := List.any_eq_false.1 h p hp
    simp [hk] at this
  exact getDA_eq_zero_of_not_mem this

theorem gFold_spec (mit : List String) :
    ∀ (l : List (String × HostMetrics)) (g : List (String × Value)) (n : ℕ),
    ((l.foldl (gStep mit) (g, n)).2 = n + (benignHosts mit l).length) ∧
    (∀ k, lookupA (l.foldl (gStep mit) (g, n)).1 k =
      if (benignHosts mit l).any (fun p => decide (k ∈ keysA p.2.get_metrics)) then
        some (getDA g k 0 +
          ((benignHosts mit l).map (fun p => getDA p.2.get_metrics k 0)).sum)
      else lookupA g k) := by
  intro l
  induction l with
  | nil => intro g n; simp [benignHosts]
  | cons p rest ih =>
    intro g n
    rw [List.foldl_cons]
    by_cases hskip : p.1 ∈ mit ∨ p.2.active = false
    · have hstep : gStep mit (g, n) p = (g, n) := by simp [gStep, hskip]
      rw [hstep, benignHosts_cons_skip rest hskip]
      exact ih g n
    · have hstep : gStep mit (g, n) p = (globalAddReport g p.2.get_metrics, n + 1) := by
        simp [gStep, hskip]
      rw [hstep, benignHosts_cons_keep rest hskip]
      obtain ⟨ihn, ihl⟩ := ih (globalAddReport g p.2.get_metrics) (n + 1)
      constructor
      · rw [ihn]
        simp
        omega
      · intro k
        rw [ihl k]
        have hga := globalAddReport_lookup p.2.get_metrics k g (get_metrics_keys_nodup p.2)
        have hgd : getDA (globalAddReport g p.2.get_metrics) k 0 =
            if k ∈ keysA p.2.get_metrics then getDA g k 0 + getDA p.2.get_metrics k 0
            else getDA g k 0 := by
          by_cases hc : k ∈ keysA p.2.get_metrics <;> simp [getDA, hga, hc]
        by_cases c1 : k ∈ keysA p.2.get_metrics
        · by_cases c2 :
            (benignHosts mit rest).any (fun q => decide (k ∈ keysA q.2.get_metrics)) = true
          · rw [if_pos c2]
            have hcond : (List.any (p :: benignHosts mit rest)
                (fun q => decide (k ∈ keysA q.2.get_metrics))) = true := by
              simp [c2]
            rw [if_pos hcond, hgd, if_pos c1]
            simp [add_assoc]
          · rw [if_neg (by simpa using c2)]
            have hcond : (List.any (p :: benignHosts mit rest)
                (fun q => decide (k ∈ keysA q.2.get_metrics))) = true := by
              simp [c1]
            rw [if_pos hcond, hga, if_pos c1]
            have hz : ((benignHosts mit rest).map (fun q => getDA q.2.get_metrics k 0)).sum = 0 :=
              sum_reports_zero rest (by simpa using c2)
            simp [hz]
        · by_cases c2 :
            (benignHosts mit rest).any (fun q => decide (k ∈ keysA q.2.get_metrics)) = true
          · rw [if_pos c2]
            have hcond : (List.any (p :: benignHosts mit rest)
                (fun q => decide (k ∈ keysA q.2.get_metrics))) = true := by
              simp [c2]
            rw [if_pos hcond, hgd, if_neg c1]
            have hz : getDA p.2.get_metrics k 0 = 0 := getDA_eq_zero_of_not_mem c1
            simp [hz]
          · rw [if_neg (by simpa using c2), hga, if_neg c1]
            have hcond : (List.any (p :: benignHosts mit rest)
                (fun q => decide (k ∈ keysA q.2.get_metrics))) = false := by
              rw [List.any_cons]
              have h1 : decide (k ∈ keysA p.2.get_metrics) = false := by simp [c1]
              rw [h1, Bool.false_or]
              exact Bool.eq_false_iff.2 c2
            rw [if_neg (by simp [hcond])]

theorem gFold_of_no_benign (mit : List String) :
    ∀ (l : List (String × HostMetrics)) (g : List (String × Value)) (n : ℕ),
    benignHosts mit l = [] → l.foldl (gStep mit) (g, n) = (g, n) := by
  intro l
  induction l with
  | nil => intro g n _; rfl
  | cons p rest ih =>
    intro g n hb
    by_cases hskip : p.1 ∈ mit ∨ p.2.active = false
    · rw [benignHosts_cons_skip rest hskip] at hb
      rw [List.foldl_cons]
      have hstep : gStep mit (g, n) p = (g, n) := by simp [gStep, hskip]
      rw [hstep]
      exact ih g n hb
    · rw [benignHosts_cons_keep rest hskip] at hb
      cases hb

/-- C7: phase (b) recomputes `globalMetrics` from scratch. Exactly the
active-and-not-mitigated (benign) hosts contribute; when there are none the
map is left empty; otherwise, for every metric key, the stored value is the
component-wise sum of the benign hosts' averaged reports divided by the
benign-host count, where each host's report assigns to each of its metric
keys `round(sum(chosenSeq) / currentSamples)` with `chosenSeq` the
normalized sequence if `prefNormalized` and the raw sequence otherwise. -/
theorem claim_C7_global_baseline (d : Detector) :
    ((benignHosts d.mitigatedHostIds d.hostMetrics).length = 0 →
      (d.update_global_metrics).globalMetrics = []) ∧
    ((benignHosts d.mitigatedHostIds d.hostMetrics).length ≠ 0 →
      ∀ k, lookupA (d.update_global_metrics).globalMetrics k =
        if (benignHosts d.mitigatedHostIds d.hostMetrics).any
            (fun p => decide (k ∈ keysA p.2.get_metrics)) then
          some ((((benignHosts d.mitigatedHostIds d.hostMetrics).map
              (fun p => getDA p.2.get_metrics k 0)).sum) /
            ((benignHosts d.mitigatedHostIds d.hostMetrics).length : ℚ))
        else none) ∧
    (∀ (hm : HostMetrics) (k : String), k ∈ keysA hm.metrics →
      lookupA hm.get_metrics k =
        some (((pyRound (pySum (hm.chosenSeq k) / (hm.currentSamples : ℚ)) : ℤ) : ℚ))) := by
  have hg : (d.update_global_metrics).globalMetrics =
      (if (d.hostMetrics.foldl (gStep d.mitigatedHostIds) ([], 0)).2 ≠ 0 then
        (d.hostMetrics.foldl (gStep d.mitigatedHostIds) ([], 0)).1.map
          (fun q => (q.1, q.2 / ((d.hostMetrics.foldl (gStep d.mitigatedHostIds) ([], 0)).2 : ℚ)))
      else (d.hostMetrics.foldl (gStep d.mitigatedHostIds) ([], 0)).1) := rfl
  obtain ⟨hn, hl⟩ := gFold_spec d.mitigatedHostIds d.hostMetrics [] 0
  refine ⟨?_, ?_, ?_⟩
  · intro h0
    have hb : benignHosts d.mitigatedHostIds d.hostMetrics = [] := List.length_eq_zero.1 h0
    rw [hg, gFold_of_no_benign d.mitigatedHostIds d.hostMetrics [] 0 hb]
    simp
  · intro hne k
    have h2 : (d.hostMetrics.foldl (gStep d.mitigatedHostIds) ([], 0)).2 ≠ 0 := by
      rw [hn]
      simpa using hne
    rw [hg, if_pos h2,
      lookupA_map_values
        (fun x => x / ((d.hostMetrics.foldl (gStep d.mitigatedHostIds) ([], 0)).2 : ℚ)),
      hl k]
    by_cases hc : (benignHosts d.mitigatedHostIds d.hostMetrics).any
        (fun p => decide (k ∈ keysA p.2.get_metrics)) = true
    · rw [if_pos hc, if_pos hc]
      simp [getDA, lookupA, hn]
    · rw [if_neg hc, if_neg hc]
      simp [lookupA]
  · intro hm k hk
    rw [get_metrics_lookup, if_pos hk]

/-- A concrete detector with one benign host, used to witness C7. -/
def sc7d : Detector :=
  { config := sc2cfg
    hostMetrics :=
      [("H",
        { metrics := [("Activity", [2]), ("Cpu", [10])]
          normalized := [("Activity", [2]), ("Cpu", [10])]
          maxSamples := 3
          currentSamples := 1
          activityThreshold := 1
          inactivityThreshold := 1
          prefNormalized := false
          deltas := []
          active := true
          actAliased := false })]
    hostFlags := []
    hostDeflags := []
    globalMetrics := []
    mitigatedHostIds := [] }

/-- Witness for C7: on `sc7d` the single benign host fixes
`globalMetrics[Cpu] = 10`. -/
theorem claim_C7_global_baseline_witness :
    lookupA (sc7d.update_global_metrics).globalMetrics "Cpu" = some 10 := by
  have h := (claim_C7_global_baseline sc7d).2.1 (by with_unfolding_all decide) "Cpu"
  rw [h]
  with_unfolding_all rfl

/-! ### C6: flag and deflag counter update -/


/-- Whether one delta strictly exceeds its configured threshold (false when
the threshold is missing; `computeTrigger` would raise before using it). -/
def exceedsB (thr : List (String × Value)) (q : String × Value) : Bool :=
  match lookupA thr q.1 with
  | none => false
  | some t => decide (t < q.2)

/-- When every delta key has a threshold, the trigger computation succeeds
and returns exactly "all deltas strictly exceed their thresholds". -/
theorem computeTrigger_ok : ∀ (deltas thr : List (String × Value)),
    (∀ q ∈ deltas, (lookupA thr q.1).isSome = true) →
    computeTrigger deltas thr = .ok (deltas.all (exceedsB thr)) := by
  intro deltas
  induction deltas with
  | nil => intro thr _; rfl
  | cons q rest ih =>
    obtain ⟨k, v⟩ := q
    intro thr hp
    obtain ⟨t, ht⟩ := Option.isSome_iff_exists.1 (hp (k, v) (List.mem_cons_self _ _))
    have ht2 : lookupA thr k = some t := ht
    have hstep : computeTrigger ((k, v) :: rest) thr =
        (if v ≤ t then .ok false else computeTrigger rest thr) := by
      conv_lhs => unfold computeTrigger
      rw [ht2]
    rw [hstep, List.all_cons]
    have hex : exceedsB thr (k, v) = decide (t < v) := by
      unfold exceedsB
      rw [ht2]
    by_cases hle : v ≤ t
    · rw [if_pos hle, hex]
      have : decide (t < v) = false := by simp [not_lt.2 hle]
      rw [this]
      rfl
    · rw [if_neg hle, hex]
      have : decide (t < v) = true := by simp [lt_of_not_le hle]
      rw [this, Bool.true_and]
      exact ih thr (fun q2 h2 => hp q2 (List.mem_cons.2 (Or.inr h2)))

/-- The effect phase (d) has on the two counters of one host, relative to
baseline maps `flags0`/`deflags0`. -/
def flagRule (thr : List (String × Value)) (mit : List String)
    (flags0 deflags0 flags1 deflags1 : List (String × ℤ)) (p : String × HostMetrics) : Prop :=
  (p.2.active = false →
    lookupA flags1 p.1 = lookupA flags0 p.1 ∧
    lookupA deflags1 p.1 = lookupA deflags0 p.1) ∧
  (p.2.active = true → p.2.deltas.all (exceedsB thr) = true → p.1 ∈ mit →
    lookupA deflags1 p.1 = some 0 ∧ lookupA flags1 p.1 = lookupA flags0 p.1) ∧
  (p.2.active = true → p.2.deltas.all (exceedsB thr) = true → p.1 ∉ mit →
    lookupA flags1 p.1 = some (getDA flags0 p.1 0 + 1) ∧
    lookupA deflags1 p.1 = lookupA deflags0 p.1) ∧
  (p.2.active = true → p.2.deltas.all (exceedsB thr) = false → p.1 ∈ mit →
    lookupA deflags1 p.1 = some (getDA deflags0 p.1 0 + 1) ∧
    lookupA flags1 p.1 = lookupA flags0 p.1) ∧
  (p.2.active = true → p.2.deltas.all (exceedsB thr) = false → p.1 ∉ mit →
    lookupA flags1 p.1 = lookupA flags0 p.1 ∧
    lookupA deflags1 p.1 = lookupA deflags0 p.1)

theorem flagRule_congr {thr : List (String × Value)} {mit : List String}
    {flags0 deflags0 flags0' deflags0' flags1 deflags1 : List (String × ℤ)}
    {p : String × HostMetrics}
    (hf : lookupA flags0' p.1 = lookupA flags0 p.1)
    (hd : lookupA deflags0' p.1 = lookupA deflags0 p.1)
    (h : flagRule thr mit flags0' deflags0' flags1 deflags1 p) :
    flagRule thr mit flags0 deflags0 flags1 deflags1 p := by
  obtain ⟨c1, c2, c3, c4, c5⟩ := h
  refine ⟨?_, ?_, ?_, ?_, ?_⟩
  · intro ha
    obtain ⟨e1, e2⟩ := c1 ha
    exact ⟨e1.trans hf, e2.trans hd⟩
  · intro ha hb hc
    obtain ⟨e1, e2⟩ := c2 ha hb hc
    exact ⟨e1, e2.trans hf⟩
  · intro ha hb hc
    obtain ⟨e1, e2⟩ := c3 ha hb hc
    refine ⟨?_, e2.trans hd⟩
    rw [e1]
    simp [getDA, hf]
  · intro ha hb hc
    obtain ⟨e1, e2⟩ := c4 ha hb hc
    refine ⟨?_, e2.trans hf⟩
    rw [e1]
    simp [getDA, hd]
  · intro ha hb hc
    obtain ⟨e1, e2⟩ := c5 ha hb hc
    exact ⟨e1.trans hf, e2.trans hd⟩

theorem flagStep_spec (d : Detector) (p : String × HostMetrics)
    (hp : p.2.active = true →
      ∀ q ∈ p.2.deltas, (lookupA d.config.thresholds q.1).isSome = true) :
    ∃ d', flagStep d p = .ok d' ∧
      d'.config = d.config ∧ d'.hostMetrics = d.hostMetrics ∧
      d'.globalMetrics = d.globalMetrics ∧ d'.mitigatedHostIds = d.mitigatedHostIds ∧
      (∀ h, h ≠ p.1 → lookupA d'.hostFlags h = lookupA d.hostFlags h ∧
        lookupA d'.hostDeflags h = lookupA d.hostDeflags h) ∧
      flagRule d.config.thresholds d.mitigatedHostIds d.hostFlags d.hostDeflags
        d'.hostFlags d'.hostDeflags p := by
  cases hact : p.2.active with
  | false =>
    refine ⟨d, ?_, rfl, rfl, rfl, rfl, fun h _ => ⟨rfl, rfl⟩, ?_⟩
    · unfold flagStep
      rw [if_pos hact]
    · refine ⟨fun _ => ⟨rfl, rfl⟩, ?_, ?_, ?_, ?_⟩ <;>
        · intro ha
          rw [hact] at ha
          cases ha
  | true =>
    have hcond : ¬ (p.2.active = false) := by rw [hact]; simp
    have htr := computeTrigger_ok p.2.deltas d.config.thresholds (hp hact)
    have hflagstep : flagStep d p =
        (if p.2.deltas.all (exceedsB d.config.thresholds) then
          if p.1 ∈ d.mitigatedHostIds then
            .ok { d with hostDeflags := updateA d.hostDeflags p.1 0 }
          else
            .ok { d with hostFlags := updateA d.hostFlags p.1 (getDA d.hostFlags p.1 0 + 1) }
        else if p.1 ∈ d.mitigatedHostIds then
          .ok { d with hostDeflags := updateA d.hostDeflags p.1 (getDA d.hostDeflags p.1 0 + 1) }
        else .ok d) := by
      unfold flagStep
      rw [if_neg hcond, htr]
    by_cases hall : p.2.deltas.all (exceedsB d.config.thresholds) = true
    · by_cases hmit : p.1 ∈ d.mitigatedHostIds
      · refine ⟨{ d with hostDeflags := updateA d.hostDeflags p.1 0 }, ?_, rfl, rfl, rfl, rfl,
          ?_, ?_⟩
        · rw [hflagstep, if_pos hall, if_pos hmit]
        · intro h hne
          refine ⟨rfl, ?_⟩
          simp [lookupA_updateA, hne]
        · refine ⟨?_, ?_, ?_, ?_, ?_⟩
          · intro ha; rw [hact] at ha; cases ha
          · intro _ _ _
            refine ⟨?_, rfl⟩
            simp [lookupA_updateA]
          · intro _ _ hc; exact absurd hmit hc
          · intro _ hb _; rw [hall] at hb; cases hb
          · intro _ hb _; rw [hall] at hb; cases hb
      · refine ⟨{ d with hostFlags := updateA d.hostFlags p.1 (getDA d.hostFlags p.1 0 + 1) },
          ?_, rfl, rfl, rfl, rfl, ?_, ?_⟩
        · rw [hflagstep, if_pos hall, if_neg hmit]
        · intro h hne
          refine ⟨?_, rfl⟩
          simp [lookupA_updateA, hne]
        · refine ⟨?_, ?_, ?_, ?_, ?_⟩
          · intro ha; rw [hact] at ha; cases ha
          · intro _ _ hc; exact absurd hc hmit
          · intro _ _ _
            refine ⟨?_, rfl⟩
            simp [lookupA_updateA]
          · intro _ hb _; rw [hall] at hb; cases hb
          · intro _ hb _; rw [hall] at hb; cases hb
    · have hallf : p.2.deltas.all (exceedsB d.config.thresholds) = false :=
        Bool.eq_false_iff.2 hall
      by_cases hmit : p.1 ∈ d.mitigatedHostIds
      · refine ⟨{ d with hostDeflags := updateA d.hostDeflags p.1 (getDA d.hostDeflags p.1 0 + 1) },
          ?_, rfl, rfl, rfl, rfl, ?_, ?_⟩
        · rw [hflagstep, if_neg hall, if_pos hmit]
        · intro h hne
          refine ⟨rfl, ?_⟩
          simp [lookupA_updateA, hne]
        · refine ⟨?_, ?_, ?_, ?_, ?_⟩
          · intro ha; rw [hact] at ha; cases ha
          · intro _ hb _; rw [hallf] at hb; cases hb
          · intro _ hb _; rw [hallf] at hb; cases hb
          · intro _ _ _
            refine ⟨?_, rfl⟩
            simp [lookupA_updateA]
          · intro _ _ hc; exact absurd hmit hc
      · refine ⟨d, ?_, rfl, rfl, rfl, rfl, fun h _ => ⟨rfl, rfl⟩, ?_⟩
        · rw [hflagstep, if_neg hall, if_neg hmit]
        · refine ⟨?_, ?_, ?_, ?_, ?_⟩
          · intro ha; rw [hact] at ha; cases ha
          · intro _ hb _; rw [hallf] at hb; cases hb
          · intro _ hb _; rw [hallf] at hb; cases hb
          · intro _ _ hc; exact absurd hc hmit
          · intro _ _ _; exact ⟨rfl, rfl⟩

theorem flagsLoop_spec : ∀ (l : List (String × HostMetrics)) (d : Detector),
    (∀ p ∈ l, p.2.active = true →
      ∀ q ∈ p.2.deltas, (lookupA d.config.thresholds q.1).isSome = true) →
    (keysA l).Nodup →
    ∃ d', flagsLoop d l = .ok d' ∧
      d'.config = d.config ∧ d'.hostMetrics = d.hostMetrics ∧
      d'.globalMetrics = d.globalMetrics ∧ d'.mitigatedHostIds = d.mitigatedHostIds ∧
      (∀ h, h ∉ keysA l →
        lookupA d'.hostFlags h = lookupA d.hostFlags h ∧
        lookupA d'.hostDeflags h = lookupA d.hostDeflags h) ∧
      (∀ p ∈ l, flagRule d.config.thresholds d.mitigatedHostIds d.hostFlags d.hostDeflags
        d'.hostFlags d'.hostDeflags p) := by
  intro l
  induction l with
  | nil =>
    intro d _ _
    exact ⟨d, rfl, rfl, rfl, rfl, rfl, fun h _ => ⟨rfl, rfl⟩, fun p hp => absurd hp (by simp)⟩
  | cons p rest ih =>
    intro d hp hnd
    have h0 : keysA (p :: rest) = p.1 :: keysA rest := rfl
    rw [h0] at hnd
    have hpk : p.1 ∉ keysA rest := (List.nodup_cons.1 hnd).1
    have hndr : (keysA rest).Nodup := (List.nodup_cons.1 hnd).2
    obtain ⟨d1, hstep, hc1, hm1, hg1, hmit1, hother1, hrule1⟩ :=
      flagStep_spec d p (hp p (List.mem_cons_self _ _))
    have hp2 : ∀ q ∈ rest, q.2.active = true →
        ∀ r ∈ q.2.deltas, (lookupA d1.config.thresholds r.1).isSome = true := by
      rw [hc1]
      exact fun q hq => hp q (List.mem_cons.2 (Or.inr hq))
    obtain ⟨d', hloop, hc2, hm2, hg2, hmit2, hother2, hrule2⟩ := ih d1 hp2 hndr
    have hflags : flagsLoop d (p :: rest) = .ok d' := by
      unfold flagsLoop
      rw [hstep]
      exact hloop
    refine ⟨d', hflags, hc2.trans hc1, hm2.trans hm1, hg2.trans hg1, hmit2.trans hmit1,
      ?_, ?_⟩
    · intro h hh
      rw [h0] at hh
      have hne : h ≠ p.1 := fun he => hh (he ▸ List.mem_cons_self _ _)
      have hnr : h ∉ keysA rest := fun hr => hh (List.mem_cons.2 (Or.inr hr))
      obtain ⟨e1, e2⟩ := hother2 h hnr
      obtain ⟨e3, e4⟩ := hother1 h hne
      exact ⟨e1.trans e3, e2.trans e4⟩
    · intro q hq
      rcases List.mem_cons.1 hq with rfl | hq2
      · -- the rule for the head host: later steps do not touch its key
        obtain ⟨e1, e2⟩ := hother2 q.1 hpk
        obtain ⟨c1, c2, c3, c4, c5⟩ := hrule1
        refine ⟨?_, ?_, ?_, ?_, ?_⟩
        · intro ha
          obtain ⟨f1, f2⟩ := c1 ha
          exact ⟨e1.trans f1, e2.trans f2⟩
        · intro ha hb hc
          obtain ⟨f1, f2⟩ := c2 ha hb hc
          exact ⟨e2.trans f1, e1.trans f2⟩
        · intro ha hb hc
          obtain ⟨f1, f2⟩ := c3 ha hb hc
          exact ⟨e1.trans f1, e2.trans f2⟩
        · intro ha hb hc
          obtain ⟨f1, f2⟩ := c4 ha hb hc
          exact ⟨e2.trans f1, e1.trans f2⟩
        · intro ha hb hc
          obtain ⟨f1, f2⟩ := c5 ha hb hc
          exact ⟨e1.trans f1, e2.trans f2⟩
      · have hqne : q.1 ≠ p.1 := by
          intro he
          exact hpk (he ▸ List.mem_map.2 ⟨q, hq2, rfl⟩)
        have hr := hrule2 q hq2
        rw [hc1, hmit1] at hr
        obtain ⟨e1, e2⟩ := hother1 q.1 hqne
        exact flagRule_congr e1 e2 hr

/-- C6: the effect of phase (d) (`__update_host_flags`). When every active
host's delta keys all have configured thresholds (so no `KeyError` fires),
the phase succeeds, touches nothing but the two counter maps, leaves
counters of hosts outside `hostMetrics` alone, and updates each tracked
host's counters by the rule: inactive hosts are skipped; if all deltas
strictly exceed their thresholds then a mitigated host has its deflag reset
to 0 and a non-mitigated host has its flag incremented (initialized to 1 if
absent); if some delta is below or equal, a mitigated host has its deflag
incremented (initialized to 1 if absent); otherwise nothing changes. -/
theorem claim_C6_flag_update (d : Detector)
    (hthr : ∀ p ∈ d.hostMetrics, p.2.active = true →
      ∀ q ∈ p.2.deltas, (lookupA d.config.thresholds q.1).isSome = true)
    (hnd : (keysA d.hostMetrics).Nodup) :
    ∃ d', d.update_host_flags = .ok d' ∧
      d'.config = d.config ∧ d'.hostMetrics = d.hostMetrics ∧
      d'.globalMetrics = d.globalMetrics ∧ d'.mitigatedHostIds = d.mitigatedHostIds ∧
      (∀ h, h ∉ keysA d.hostMetrics →
        lookupA d'.hostFlags h = lookupA d.hostFlags h ∧
        lookupA d'.hostDeflags h = lookupA d.hostDeflags h) ∧
      (∀ p ∈ d.hostMetrics, flagRule d.config.thresholds d.mitigatedHostIds
        d.hostFlags d.hostDeflags d'.hostFlags d'.hostDeflags p) :=
  flagsLoop_spec d.hostMetrics d hthr hnd

/-- A concrete detector for the C6 witness: one active host whose only delta
(`Cpu = 2`) strictly exceeds its threshold (`4/5`). -/
def sc6d : Detector :=
  { config := sc3cfg
    hostMetrics :=
      [("H",
        { metrics := [("Activity", [2]), ("Cpu", [10])]
          normalized := [("Activity", [2]), ("Cpu", [10])]
          maxSamples := 3
          currentSamples := 1
          activityThreshold := 1
          inactivityThreshold := 1
          prefNormalized := false
          deltas := [("Cpu", 2)]
          active := true
          actAliased := false })]
    hostFlags := []
    hostDeflags := []
    globalMetrics := []
    mitigatedHostIds := [] }

/-- Witness for C6 at the concrete detector `sc6d`. -/
theorem claim_C6_flag_update_witness :
    ∃ d', sc6d.update_host_flags = .ok d' ∧
      d'.config = sc6d.config ∧ d'.hostMetrics = sc6d.hostMetrics ∧
      d'.globalMetrics = sc6d.globalMetrics ∧ d'.mitigatedHostIds = sc6d.mitigatedHostIds ∧
      (∀ h, h ∉ keysA sc6d.hostMetrics →
        lookupA d'.hostFlags h = lookupA sc6d.hostFlags h ∧
        lookupA d'.hostDeflags h = lookupA sc6d.hostDeflags h) ∧
      (∀ p ∈ sc6d.hostMetrics, flagRule sc6d.config.thresholds sc6d.mitigatedHostIds
        sc6d.hostFlags sc6d.hostDeflags d'.hostFlags d'.hostDeflags p) :=
  claim_C6_flag_update sc6d (by with_unfolding_all decide) (by with_unfolding_all decide)

/-! ### C3 (amended): effect of an empty sample batch -/


/-- Equality of every `HostMetrics` field except `deltas` (the only field
`update_deltas` writes). -/
def windowEq (a b : HostMetrics) : Prop :=
  a.metrics = b.metrics ∧ a.normalized = b.normalized ∧
  a.currentSamples = b.currentSamples ∧ a.active = b.active ∧
  a.maxSamples = b.maxSamples ∧ a.actAliased = b.actAliased ∧
  a.activityThreshold = b.activityThreshold ∧
  a.inactivityThreshold = b.inactivityThreshold ∧
  a.prefNormalized = b.prefNormalized

theorem windowEq_refl (a : HostMetrics) : windowEq a a :=
  ⟨rfl, rfl, rfl, rfl, rfl, rfl, rfl, rfl, rfl⟩

theorem updateDeltasLoop_windowEq (g : List (String × Value)) :
    ∀ (rep : List (String × Value)) (hm hm' : HostMetrics),
    updateDeltasLoop g hm rep = .ok hm' → windowEq hm' hm := by
  intro rep
  induction rep with
  | nil => intro hm hm' h; cases h; exact windowEq_refl _
  | cons q rest ih =>
    intro hm hm' h
    unfold updateDeltasLoop at h
    split at h
    · cases h
    · split at h
      · cases h
      · have h2 := ih _ _ h
        exact h2

theorem update_deltas_windowEq {hm hm' : HostMetrics} {g : List (String × Value)}
    (h : hm.update_deltas g = .ok hm') : windowEq hm' hm :=
  updateDeltasLoop_windowEq g hm.get_metrics hm hm' h

theorem hdLoop_spec (g : List (String × Value)) :
    ∀ (l store store' : List (String × HostMetrics)),
    hdLoop g store l = .ok store' → (keysA l).Nodup →
    (∀ p ∈ l, lookupA store p.1 = some p.2) →
    (∀ h, h ∉ keysA l → lookupA store' h = lookupA store h) ∧
    (∀ p ∈ l, ∃ hm', lookupA store' p.1 = some hm' ∧ windowEq hm' p.2) := by
  intro l
  induction l with
  | nil =>
    intro store store' h _ _
    cases h
    exact ⟨fun h _ => rfl, fun p hp => absurd hp (by simp)⟩
  | cons p rest ih =>
    intro store store' h hnd hcorr
    have h0 : keysA (p :: rest) = p.1 :: keysA rest := rfl
    rw [h0] at hnd
    have hpk : p.1 ∉ keysA rest := (List.nodup_cons.1 hnd).1
    have hndr : (keysA rest).Nodup := (List.nodup_cons.1 hnd).2
    unfold hdLoop at h
    split at h
    · -- inactive host: the store is not touched at this step
      obtain ⟨hout, hin⟩ := ih store store' h hndr
        (fun q hq => hcorr q (List.mem_cons.2 (Or.inr hq)))
      refine ⟨?_, ?_⟩
      · intro hh hmem
        rw [h0] at hmem
        exact hout hh (fun hr => hmem (List.mem_cons.2 (Or.inr hr)))
      · intro q hq
        rcases List.mem_cons.1 hq with rfl | hq2
        · refine ⟨q.2, ?_, windowEq_refl _⟩
          rw [hout q.1 hpk]
          exact hcorr q (List.mem_cons_self _ _)
        · exact hin q hq2
    · -- active host: deltas recomputed, entry overwritten via updateA
      split at h
      · cases h
      · next hm' hup =>
        have hcorr2 : ∀ q ∈ rest, lookupA (updateA store p.1 hm') q.1 = some q.2 := by
          intro q hq
          have hne : q.1 ≠ p.1 := fun he => hpk (he ▸ List.mem_map.2 ⟨q, hq, rfl⟩)
          rw [lookupA_updateA, if_neg hne]
          exact hcorr q (List.mem_cons.2 (Or.inr hq))
        obtain ⟨hout, hin⟩ := ih (updateA store p.1 hm') store' h hndr hcorr2
        refine ⟨?_, ?_⟩
        · intro hh hmem
          rw [h0] at hmem
          have hne : hh ≠ p.1 := fun he => hmem (he ▸ List.mem_cons_self _ _)
          rw [hout hh (fun hr => hmem (List.mem_cons.2 (Or.inr hr))), lookupA_updateA]
          rw [if_neg hne]
        · intro q hq
          rcases List.mem_cons.1 hq with rfl | hq2
          · refine ⟨hm', ?_, ?_⟩
            · rw [hout q.1 hpk, lookupA_updateA, if_pos rfl]
            · exact update_deltas_windowEq hup
          · exact hin q hq2

theorem flagStep_hostMetrics {d d' : Detector} {p : String × HostMetrics}
    (h : flagStep d p = .ok d') :
    d'.hostMetrics = d.hostMetrics ∧ d'.config = d.config ∧
    d'.globalMetrics = d.globalMetrics ∧ d'.mitigatedHostIds = d.mitigatedHostIds := by
  unfold flagStep at h
  split at h
  · cases h; exact ⟨rfl, rfl, rfl, rfl⟩
  · split at h
    · cases h
    · split at h
      · split at h
        · cases h; exact ⟨rfl, rfl, rfl, rfl⟩
        · cases h; exact ⟨rfl, rfl, rfl, rfl⟩
      · split at h
        · cases h; exact ⟨rfl, rfl, rfl, rfl⟩
        · cases h; exact ⟨rfl, rfl, rfl, rfl⟩

theorem flagsLoop_hostMetrics : ∀ (l : List (String × HostMetrics)) (d d' : Detector),
    flagsLoop d l = .ok d' →
    d'.hostMetrics = d.hostMetrics ∧ d'.config = d.config ∧
    d'.globalMetrics = d.globalMetrics ∧ d'.mitigatedHostIds = d.mitigatedHostIds := by
  intro l
  induction l with
  | nil => intro d d' h; cases h; exact ⟨rfl, rfl, rfl, rfl⟩
  | cons p rest ih =>
    intro d d' h
    unfold flagsLoop at h
    split at h
    · cases h
    · next d1 hs =>
      obtain ⟨e1, e2, e3, e4⟩ := ih d1 d' h
      obtain ⟨f1, f2, f3, f4⟩ := flagStep_hostMetrics hs
      exact ⟨e1.trans f1, e2.trans f2, e3.trans f3, e4.trans f4⟩

theorem startLoop_hostMetrics (fba : ℤ) :
    ∀ (fl : List (String × ℤ)) (d : Detector) (evs : List Event),
    ((startLoop fba d evs fl).1.hostMetrics = d.hostMetrics ∧
     (startLoop fba d evs fl).1.config = d.config ∧
     (startLoop fba d evs fl).1.globalMetrics = d.globalMetrics) := by
  intro fl
  induction fl with
  | nil => intro d evs; exact ⟨rfl, rfl, rfl⟩
  | cons p rest ih =>
    intro d evs
    unfold startLoop
    split
    · exact ih _ _
    · exact ih _ _

theorem stopLoop_hostMetrics (dbd : ℤ) :
    ∀ (fl : List (String × ℤ)) (d : Detector) (evs : List Event),
    ((stopLoop dbd d evs fl).1.hostMetrics = d.hostMetrics ∧
     (stopLoop dbd d evs fl).1.config = d.config ∧
     (stopLoop dbd d evs fl).1.globalMetrics = d.globalMetrics) := by
  intro fl
  induction fl with
  | nil => intro d evs; exact ⟨rfl, rfl, rfl⟩
  | cons p rest ih =>
    intro d evs
    unfold stopLoop
    split
    · exact ih _ _
    · exact ih _ _

theorem dispatch_hostMetrics (d : Detector) :
    (d.dispatch).1.hostMetrics = d.hostMetrics := by
  unfold Detector.dispatch
  split
  · rfl
  · next fba dbd _ =>
    obtain ⟨e1, -, -⟩ := stopLoop_hostMetrics dbd _ _ _
    obtain ⟨f1, -, -⟩ := startLoop_hostMetrics fba d.hostFlags d []
    exact e1.trans f1

/-- C3 (amended): an empty sample batch leaves every host's windows,
`currentSamples` and `active` bit unchanged (only `deltas` inside
`hostMetrics` can change), and it is strictly a no-op — same state, no
events — when nothing is tracked and the counter/global maps are empty. -/
theorem claim_C3_amended :
    (∀ (d d' : Detector) (evs : List Event),
      d.update_metrics [] = .ok (d', evs) →
      (keysA d.hostMetrics).Nodup →
      ∀ p ∈ d.hostMetrics,
        ∃ hm', lookupA d'.hostMetrics p.1 = some hm' ∧ windowEq hm' p.2) ∧
    (∀ d : Detector, d.hostMetrics = [] → d.globalMetrics = [] →
      d.hostFlags = [] → d.hostDeflags = [] →
      d.update_metrics [] = .ok (d, [])) := by
  constructor
  · intro d d' evs h hnd p hp
    unfold Detector.update_metrics at h
    split at h
    · next e heq =>
      rw [show recordLoop d [] = .ok d from rfl] at heq
      cases heq
    · next d1 heq =>
      rw [show recordLoop d [] = .ok d from rfl] at heq
      injection heq with heq1
      subst heq1
      split at h
      · cases h
      · next d3 heq3 =>
        split at h
        · cases h
        · next d4 heq4 =>
          injection h with h5
          have hm4 : d4.hostMetrics = d3.hostMetrics :=
            (flagsLoop_hostMetrics d3.hostMetrics d3 d4 heq4).1
          have hfst : (d4.dispatch).1 = d' := by rw [h5]
          have hdisp : d'.hostMetrics = d4.hostMetrics := by
            rw [← hfst]
            exact dispatch_hostMetrics d4
          unfold Detector.update_host_deltas at heq3
          split at heq3
          · cases heq3
          · next hms heqh =>
            injection heq3 with heq3b
            have hm3 : d3.hostMetrics = hms := by rw [← heq3b]
            have hcorr : ∀ q ∈ d.hostMetrics, lookupA d.hostMetrics q.1 = some q.2 :=
              fun q hq => lookupA_of_nodup_mem hnd hq
            obtain ⟨-, hin⟩ := hdLoop_spec (d.update_global_metrics).globalMetrics
              d.hostMetrics d.hostMetrics hms heqh hnd hcorr
            obtain ⟨hm', he, hw⟩ := hin p hp
            refine ⟨hm', ?_, hw⟩
            rw [hdisp, hm4, hm3]
            exact he
  · intro d h1 h2 h3 h4
    have hd2 : d.update_global_metrics = d := by
      have hfold : d.hostMetrics.foldl (gStep d.mitigatedHostIds) ([], 0) =
          (([] : List (String × Value)), (0 : ℕ)) := by
        rw [h1]
        rfl
      have hexp : d.update_global_metrics =
          { d with globalMetrics :=
              (if (d.hostMetrics.foldl (gStep d.mitigatedHostIds) ([], 0)).2 ≠ 0 then
                (d.hostMetrics.foldl (gStep d.mitigatedHostIds) ([], 0)).1.map
                  (fun q => (q.1, q.2 /
                    ((d.hostMetrics.foldl (gStep d.mitigatedHostIds) ([], 0)).2 : ℚ)))
              else (d.hostMetrics.foldl (gStep d.mitigatedHostIds) ([], 0)).1) } := rfl
      rw [hexp, hfold]
      simp only [ne_eq, not_true_eq_false, if_false, ite_false]
      rw [← h2]
    have hd3 : d.update_host_deltas = .ok d := by
      have hloop : hdLoop d.globalMetrics d.hostMetrics d.hostMetrics = .ok d.hostMetrics := by
        rw [h1]
        rfl
      unfold Detector.update_host_deltas
      rw [hloop]
    have hd4 : d.update_host_flags = .ok d := by
      unfold Detector.update_host_flags
      rw [h1]
      rfl
    have hd5 : d.dispatch = (d, []) := by
      unfold Detector.dispatch
      split
      · rfl
      · rw [h3]
        show stopLoop _ d [] d.hostDeflags = (d, [])
        rw [h4]
        rfl
    unfold Detector.update_metrics
    rw [show recordLoop d [] = .ok d from rfl]
    simp only [hd2, hd3, hd4, hd5]

/-- Witness for C3 (amended): the reachable `sc3d2` and its empty-batch
successor exercise the window-preservation half; a freshly initialized
detector exercises the strict no-op half. -/
theorem claim_C3_amended_witness :
    (∀ p ∈ sc3d2.hostMetrics,
      ∃ hm', lookupA sc3d3.hostMetrics p.1 = some hm' ∧ windowEq hm' p.2) ∧
    (Detector.init sc3cfg).update_metrics [] = .ok (Detector.init sc3cfg, []) :=
  ⟨claim_C3_amended.1 sc3d2 sc3d3 [] (by with_unfolding_all rfl)
      (by with_unfolding_all decide),
   claim_C3_amended.2 (Detector.init sc3cfg) rfl rfl rfl rfl⟩

/-! ### C9: unknown metric names reset the host window -/


/-- `normSet` changes nothing at other keys and keeps the alias flag. -/
theorem normSet_obs (hm : HostMetrics) (k : String) (v : List Value) :
    (hm.normSet k v).actAliased = hm.actAliased ∧
    (∀ k', k' ≠ k →
      lookupA (hm.normSet k v).metrics k' = lookupA hm.metrics k' ∧
      lookupA (hm.normSet k v).normalized k' = lookupA hm.normalized k') := by
  unfold HostMetrics.normSet
  split
  · refine ⟨rfl, fun k' hne => ⟨?_, rfl⟩⟩
    rw [lookupA_updateA, if_neg hne]
  · refine ⟨rfl, fun k' hne => ⟨rfl, ?_⟩⟩
    rw [lookupA_updateA, if_neg hne]

/-- `normSet` keeps the raw key set when its target key already exists in the
store it writes (which is the case whenever the preceding `normLookup`
succeeded). -/
theorem normSet_keysA (hm : HostMetrics) (k : String) (v : List Value)
    (hma : hm.actAliased = true → k = "Activity" → k ∈ keysA hm.metrics) :
    keysA (hm.normSet k v).metrics = keysA hm.metrics := by
  unfold HostMetrics.normSet
  split
  · next hcond => exact keysA_updateA_of_mem v (hma hcond.1 hcond.2)
  · rfl

/-- Observable effects of a successful `popleftStep` outside its key, plus
preservation of the raw key set and the alias flag. -/
theorem popleftStep_obs {hm hm1 : HostMetrics} {k : String}
    (h : popleftStep hm k = .ok hm1) :
    keysA hm1.metrics = keysA hm.metrics ∧
    hm1.actAliased = hm.actAliased ∧
    (∀ k', k' ≠ k →
      lookupA hm1.metrics k' = lookupA hm.metrics k' ∧
      lookupA hm1.normalized k' = lookupA hm.normalized k') := by
  unfold popleftStep at h
  split at h
  · cases h
  · cases h
  · next x rest hl =>
    have hmem : k ∈ keysA hm.metrics := by
      rw [mem_keysA_iff_isSome, hl]
      rfl
    set hmInt : HostMetrics := { hm with metrics := updateA hm.metrics k rest } with hInt
    have hkeysInt : keysA hmInt.metrics = keysA hm.metrics := keysA_updateA_of_mem rest hmem
    unfold popNorm at h
    split at h
    · cases h
    · cases h
    · next y rest2 hn =>
      cases h
      obtain ⟨ha, hobs⟩ := normSet_obs hmInt k rest2
      refine ⟨?_, ha, ?_⟩
      · rw [normSet_keysA hmInt k rest2 ?_, hkeysInt]
        intro _ hk
        rw [hkeysInt]
        exact hk ▸ hmem
      · intro k' hne
        obtain ⟨e1, e2⟩ := hobs k' hne
        refine ⟨e1.trans ?_, e2.trans rfl⟩
        show lookupA (updateA hm.metrics k rest) k' = lookupA hm.metrics k'
        rw [lookupA_updateA, if_neg hne]

/-- Observable effects of a successful `appendStep` outside its key. -/
theorem appendStep_obs {hm hm1 : HostMetrics} {k : String} {v : Value}
    (h : appendStep hm k v = .ok hm1) :
    keysA hm1.metrics = keysA hm.metrics ∧
    hm1.actAliased = hm.actAliased ∧
    (∀ k', k' ≠ k →
      lookupA hm1.metrics k' = lookupA hm.metrics k' ∧
      lookupA hm1.normalized k' = lookupA hm.normalized k') := by
  unfold appendStep at h
  split at h
  · cases h
  · next l hl =>
    have hmem : k ∈ keysA hm.metrics := by
      rw [mem_keysA_iff_isSome, hl]
      rfl
    set hmInt : HostMetrics := { hm with metrics := updateA hm.metrics k (l ++ [v]) } with hInt
    have hkeysInt : keysA hmInt.metrics = keysA hm.metrics := keysA_updateA_of_mem _ hmem
    unfold appendNorm at h
    split at h
    · cases h
    · next nl hn =>
      split at h
      · cases h
      · next prev hp =>
        cases h
        obtain ⟨ha, hobs⟩ := normSet_obs hmInt k (nl ++ [v - prev])
        refine ⟨?_, ha, ?_⟩
        · rw [normSet_keysA hmInt k _ ?_, hkeysInt]
          intro _ hk
          rw [hkeysInt]
          exact hk ▸ hmem
        · intro k' hne
          obtain ⟨e1, e2⟩ := hobs k' hne
          refine ⟨e1.trans ?_, e2.trans rfl⟩
          show lookupA (updateA hm.metrics k (l ++ [v])) k' = lookupA hm.metrics k'
          rw [lookupA_updateA, if_neg hne]

theorem popleftStep_keyError {hm : HostMetrics} {k : String}
    (h : k ∉ keysA hm.metrics) : popleftStep hm k = .error .keyError := by
  unfold popleftStep
  rw [lookupA_eq_none_of_not_mem h]

theorem appendStep_keyError {hm : HostMetrics} {k : String} (v : Value)
    (h : k ∉ keysA hm.metrics) : appendStep hm k v = .error .keyError := by
  unfold appendStep
  rw [lookupA_eq_none_of_not_mem h]

theorem popleftStep_ok_of (hm : HostMetrics) (k : String)
    (hns : (lookupA hm.normalized k).isSome = true)
    (hlen : 2 ≤ (getDA hm.metrics k []).length)
    (hnlen : 1 ≤ (getDA hm.normalized k []).length)
    (halias : hm.actAliased = true → k = "Activity" → 3 ≤ (getDA hm.metrics k []).length) :
    ∃ hm1, popleftStep hm k = .ok hm1 := by
  cases hl : lookupA hm.metrics k with
  | none =>
    rw [getDA, hl] at hlen
    simp at hlen
  | some l =>
    cases l with
    | nil =>
      rw [getDA, hl] at hlen
      simp at hlen
    | cons x rest =>
      have hstep : popleftStep hm k =
          popNorm { hm with metrics := updateA hm.metrics k rest } k := by
        unfold popleftStep
        rw [hl]
      rw [hstep]
      unfold popNorm
      by_cases hal : ({ hm with metrics := updateA hm.metrics k rest } :
          HostMetrics).actAliased = true ∧ k = "Activity"
      · have hn : HostMetrics.normLookup { hm with metrics := updateA hm.metrics k rest } k =
            some rest := by
          unfold HostMetrics.normLookup
          rw [if_pos hal, lookupA_updateA, if_pos rfl]
        rw [hn]
        have hrest : 2 ≤ rest.length + 1 := by
          have h3 := halias hal.1 hal.2
          rw [getDA, hl] at h3
          simp at h3
          omega
        cases rest with
        | nil => simp at hrest
        | cons y rest2 => exact ⟨_, rfl⟩
      · have hn : HostMetrics.normLookup { hm with metrics := updateA hm.metrics k rest } k =
            lookupA hm.normalized k := by
          unfold HostMetrics.normLookup
          rw [if_neg hal]
        rw [hn]
        cases hl2 : lookupA hm.normalized k with
        | none =>
          rw [hl2] at hns
          cases hns
        | some nl =>
          cases nl with
          | nil =>
            rw [getDA, hl2] at hnlen
            simp at hnlen
          | cons y rest2 => exact ⟨_, rfl⟩

theorem appendStep_ok_of (hm : HostMetrics) (k : String) (v : Value)
    (hns : (lookupA hm.normalized k).isSome = true)
    (hlen : 1 ≤ (getDA hm.metrics k []).length) :
    ∃ hm1, appendStep hm k v = .ok hm1 := by
  cases hl : lookupA hm.metrics k with
  | none =>
    rw [getDA, hl] at hlen
    simp at hlen
  | some l =>
    have hstep : appendStep hm k v =
        appendNorm { hm with metrics := updateA hm.metrics k (l ++ [v]) } k l.getLast? v := by
      unfold appendStep
      rw [hl]
    rw [hstep]
    unfold appendNorm
    by_cases hal : ({ hm with metrics := updateA hm.metrics k (l ++ [v]) } :
        HostMetrics).actAliased = true ∧ k = "Activity"
    · have hn : HostMetrics.normLookup { hm with metrics := updateA hm.metrics k (l ++ [v]) } k =
          some (l ++ [v]) := by
        unfold HostMetrics.normLookup
        rw [if_pos hal, lookupA_updateA, if_pos rfl]
      rw [hn]
      cases hgl : l.getLast? with
      | none =>
        rw [List.getLast?_eq_none_iff] at hgl
        subst hgl
        rw [getDA, hl] at hlen
        simp at hlen
      | some prev => exact ⟨_, rfl⟩
    · have hn : HostMetrics.normLookup { hm with metrics := updateA hm.metrics k (l ++ [v]) } k =
          lookupA hm.normalized k := by
        unfold HostMetrics.normLookup
        rw [if_neg hal]
      rw [hn]
      cases hl2 : lookupA hm.normalized k with
      | none =>
        rw [hl2] at hns
        cases hns
      | some nl =>
        cases hgl : l.getLast? with
        | none =>
          rw [List.getLast?_eq_none_iff] at hgl
          subst hgl
          rw [getDA, hl] at hlen
          simp at hlen
        | some prev => exact ⟨_, rfl⟩

/-- Well-formedness of a host's stores relative to a sample: every sample key
that the host already tracks has a normalized entry, a raw deque of length at
least 2 (3 for the aliased `Activity` deque) and a non-empty normalized
deque. Reachable hosts that have recorded at least one sample and were not
shrunk by a reload satisfy this. -/
def sampleWF (hm : HostMetrics) (sample : List (String × Value)) : Prop :=
  ∀ q ∈ sample, q.1 ∈ keysA hm.metrics →
    (lookupA hm.normalized q.1).isSome = true ∧
    2 ≤ (getDA hm.metrics q.1 []).length ∧
    1 ≤ (getDA hm.normalized q.1 []).length ∧
    (hm.actAliased = true → q.1 = "Activity" → 3 ≤ (getDA hm.metrics q.1 []).length)

theorem sampleWF_restrict {hm hm1 : HostMetrics} {q0 : String × Value}
    {rest : List (String × Value)}
    (hwf : sampleWF hm (q0 :: rest))
    (hkeys : keysA hm1.metrics = keysA hm.metrics)
    (halias : hm1.actAliased = hm.actAliased)
    (hobs : ∀ k', k' ≠ q0.1 →
      lookupA hm1.metrics k' = lookupA hm.metrics k' ∧
      lookupA hm1.normalized k' = lookupA hm.normalized k')
    (hnd : q0.1 ∉ keysA rest) :
    sampleWF hm1 rest := by
  intro q hq hmem
  have hne : q.1 ≠ q0.1 := fun he => hnd (he ▸ List.mem_map.2 ⟨q, hq, rfl⟩)
  obtain ⟨e1, e2⟩ := hobs q.1 hne
  rw [hkeys] at hmem
  obtain ⟨f1, f2, f3, f4⟩ := hwf q (List.mem_cons.2 (Or.inr hq)) hmem
  refine ⟨?_, ?_, ?_, ?_⟩
  · rw [e2]; exact f1
  · rw [getDA, e1]; exact f2
  · rw [getDA, e2]; exact f3
  · intro ha hk
    rw [getDA, e1]
    exact f4 (halias ▸ ha) hk

theorem popLoop_keyError : ∀ (sample : List (String × Value)) (hm : HostMetrics),
    sampleWF hm sample →
    (∃ q ∈ sample, q.1 ∉ keysA hm.metrics) →
    (keysA sample).Nodup →
    popLoop hm sample = .error .keyError := by
  intro sample
  induction sample with
  | nil =>
    intro hm _ hnew _
    obtain ⟨q, hq, -⟩ := hnew
    cases hq
  | cons q0 rest ih =>
    obtain ⟨k0, v0⟩ := q0
    intro hm hwf hnew hnd
    have h0 : keysA ((k0, v0) :: rest) = k0 :: keysA rest := rfl
    rw [h0] at hnd
    have hq0k : k0 ∉ keysA rest := (List.nodup_cons.1 hnd).1
    have hndr : (keysA rest).Nodup := (List.nodup_cons.1 hnd).2
    show (match popleftStep hm k0 with
      | Except.error e => Except.error e
      | Except.ok hm1 => popLoop hm1 rest) = .error .keyError
    by_cases hmem : k0 ∈ keysA hm.metrics
    · obtain ⟨f1, f2, f3, f4⟩ := hwf (k0, v0) (List.mem_cons_self _ _) hmem
      obtain ⟨hm1, hstep⟩ := popleftStep_ok_of hm k0 f1 f2 f3 f4
      rw [hstep]
      obtain ⟨hkeys, halias, hobs⟩ := popleftStep_obs hstep
      show popLoop hm1 rest = .error .keyError
      refine ih hm1 (sampleWF_restrict hwf hkeys halias hobs hq0k) ?_ hndr
      obtain ⟨q, hq, hqn⟩ := hnew
      rcases List.mem_cons.1 hq with rfl | hq2
      · exact absurd hmem hqn
      · exact ⟨q, hq2, by rw [hkeys]; exact hqn⟩
    · rw [popleftStep_keyError hmem]

theorem appendLoop_keyError : ∀ (sample : List (String × Value)) (hm : HostMetrics),
    sampleWF hm sample →
    (∃ q ∈ sample, q.1 ∉ keysA hm.metrics) →
    (keysA sample).Nodup →
    appendLoop hm sample = .error .keyError := by
  intro sample
  induction sample with
  | nil =>
    intro hm _ hnew _
    obtain ⟨q, hq, -⟩ := hnew
    cases hq
  | cons q0 rest ih =>
    obtain ⟨k0, v0⟩ := q0
    intro hm hwf hnew hnd
    have h0 : keysA ((k0, v0) :: rest) = k0 :: keysA rest := rfl
    rw [h0] at hnd
    have hq0k : k0 ∉ keysA rest := (List.nodup_cons.1 hnd).1
    have hndr : (keysA rest).Nodup := (List.nodup_cons.1 hnd).2
    show (match appendStep hm k0 v0 with
      | Except.error e => Except.error e
      | Except.ok hm1 => appendLoop hm1 rest) = .error .keyError
    by_cases hmem : k0 ∈ keysA hm.metrics
    · obtain ⟨f1, f2, -, -⟩ := hwf (k0, v0) (List.mem_cons_self _ _) hmem
      obtain ⟨hm1, hstep⟩ := appendStep_ok_of hm k0 v0 f1 (le_trans (by norm_num) f2)
      rw [hstep]
      obtain ⟨hkeys, halias, hobs⟩ := appendStep_obs hstep
      show appendLoop hm1 rest = .error .keyError
      refine ih hm1 (sampleWF_restrict hwf hkeys halias hobs hq0k) ?_ hndr
      obtain ⟨q, hq, hqn⟩ := hnew
      rcases List.mem_cons.1 hq with rfl | hq2
      · exact absurd hmem hqn
      · exact ⟨q, hq2, by rw [hkeys]; exact hqn⟩
    · rw [appendStep_keyError v0 hmem]

/-- A sample holding a metric name the host does not track makes
`record_sample` raise `KeyError` (under `sampleWF`). -/
theorem record_sample_keyError {hm : HostMetrics} {sample : List (String × Value)}
    (hwf : sampleWF hm sample)
    (hnew : ∃ q ∈ sample, q.1 ∉ keysA hm.metrics)
    (hnd : (keysA sample).Nodup) :
    hm.record_sample sample = .error .keyError := by
  unfold HostMetrics.record_sample
  unfold recordWindow
  by_cases hfull : hm.currentSamples = hm.maxSamples
  · rw [if_pos hfull, popLoop_keyError sample hm hwf hnew hnd]
  · rw [if_neg hfull]
    have hwf1 : sampleWF { hm with currentSamples := hm.currentSamples + 1 } sample := hwf
    show (match appendLoop { hm with currentSamples := hm.currentSamples + 1 } sample with
      | Except.error e => Except.error e
      | Except.ok hm2 => recordFinish hm2) = .error .keyError
    rw [appendLoop_keyError sample _ hwf1 hnew hnd]

theorem foldl_seedStep_not_mem : ∀ (l : List (String × Value)) (b : HostMetrics) (k : String),
    k ∉ keysA l →
    lookupA (l.foldl seedStep b).metrics k = lookupA b.metrics k ∧
    lookupA (l.foldl seedStep b).normalized k = lookupA b.normalized k := by
  intro l
  induction l with
  | nil => intro b k _; exact ⟨rfl, rfl⟩
  | cons q rest ih =>
    intro b k hk
    have hne : k ≠ q.1 := fun he => hk (he ▸ List.mem_cons_self _ _)
    have hkr : k ∉ keysA rest := fun hr => hk (List.mem_cons.2 (Or.inr hr))
    obtain ⟨e1, e2⟩ := ih (seedStep b q) k hkr
    rw [List.foldl_cons]
    refine ⟨e1.trans ?_, e2.trans ?_⟩ <;>
      · show lookupA (updateA _ q.1 [q.2]) k = _
        rw [lookupA_updateA, if_neg hne]

theorem foldl_seedStep_lookup : ∀ (l : List (String × Value)) (b : HostMetrics),
    (keysA l).Nodup →
    ∀ q ∈ l,
      lookupA (l.foldl seedStep b).metrics q.1 = some [q.2] ∧
      lookupA (l.foldl seedStep b).normalized q.1 = some [q.2] := by
  intro l
  induction l with
  | nil => intro b _ q hq; cases hq
  | cons q0 rest ih =>
    intro b hnd q hq
    have h0 : keysA (q0 :: rest) = q0.1 :: keysA rest := rfl
    rw [h0] at hnd
    have hq0k : q0.1 ∉ keysA rest := (List.nodup_cons.1 hnd).1
    have hndr : (keysA rest).Nodup := (List.nodup_cons.1 hnd).2
    rw [List.foldl_cons]
    rcases List.mem_cons.1 hq with rfl | hq2
    · obtain ⟨e1, e2⟩ := foldl_seedStep_not_mem rest (seedStep b q) q.1 hq0k
      refine ⟨e1.trans ?_, e2.trans ?_⟩ <;>
        · show lookupA (updateA _ q.1 [q.2]) q.1 = _
          rw [lookupA_updateA, if_pos rfl]
    · exact ih (seedStep b q0) hndr q hq2

/-- What `__init__` produces on a sample containing `Activity`, with
unique metric names. -/
theorem init_spec {sample : List (String × Value)} {mx a i : ℤ} {pf : Bool}
    (hact : "Activity" ∈ keysA sample) (hnd : (keysA sample).Nodup) :
    ∃ hm', HostMetrics.init sample mx a i pf = .ok hm' ∧
      hm'.currentSamples = 1 ∧ hm'.deltas = [] ∧ hm'.actAliased = false ∧
      (∀ q ∈ sample,
        lookupA hm'.metrics q.1 = some [q.2] ∧
        lookupA hm'.normalized q.1 = some [q.2]) ∧
      (hm'.active = true ↔
        (hm'.activityThreshold : ℚ) < pySum (getDA hm'.metrics "Activity" [])) := by
  set sd := sample.foldl seedStep (HostMetrics.base mx a i pf) with hsd
  have hinit : HostMetrics.init sample mx a i pf = .ok sd.adjustActive := by
    unfold HostMetrics.init
    rw [if_pos hact]
  obtain ⟨g1, g2, g3, g4, g5, g6, g7⟩ := adjustActive_fields sd
  obtain ⟨s1, s2, s3, s4, s5, s6, s7, s8⟩ :=
    foldl_seedStep_fields sample (HostMetrics.base mx a i pf)
  refine ⟨sd.adjustActive, hinit, ?_, ?_, ?_, ?_, ?_⟩
  · rw [g3, s4]
    rfl
  · rw [g4, s6]
    rfl
  · rw [g5, s5]
    rfl
  · intro q hq
    obtain ⟨e1, e2⟩ := foldl_seedStep_lookup sample (HostMetrics.base mx a i pf) hnd q hq
    rw [g1, g2]
    exact ⟨e1, e2⟩
  · obtain ⟨ha1, ha2, ha3⟩ := adjustActive_active sd
    have hfalse : sd.active = false := by rw [s1]; rfl
    rw [g1, g6]
    constructor
    · intro hnow
      by_contra hnot
      by_cases h2 : pySum (getDA sd.metrics "Activity" []) < (sd.inactivityThreshold : ℚ)
      · rw [ha2 hnot h2] at hnow
        cases hnow
      · rw [ha3 hnot h2, hfalse] at hnow
        cases hnow
    · exact ha1

/-- C9: a sample carrying a metric name the host's first sample did not have
makes `record_sample` raise `KeyError`, which phase (a) catches by silently
replacing the host's `HostMetrics` with a fresh one seeded only from the
current sample (`currentSamples = 1`, empty deltas, no alias, singleton
deques, `active` recomputed from the single sample); the host's flag and
deflag counters (and all other detector state) are untouched by the step. -/
theorem claim_C9_unknown_metric_reset (d : Detector) (host : String) (hm : HostMetrics)
    (sample : List (String × Value))
    (hhost : lookupA d.hostMetrics host = some hm)
    (hwf : sampleWF hm sample)
    (hnew : ∃ q ∈ sample, q.1 ∉ keysA hm.metrics)
    (hnd : (keysA sample).Nodup)
    (hact : "Activity" ∈ keysA sample) :
    ∃ hm', d.recordOrReplace host sample =
        .ok { d with hostMetrics := updateA d.hostMetrics host hm' } ∧
      HostMetrics.init sample d.config.maxSamples d.config.samplesBeforeInclusion
        d.config.samplesBeforeExclusion d.config.normalizeSamples = .ok hm' ∧
      hm'.currentSamples = 1 ∧ hm'.deltas = [] ∧ hm'.actAliased = false ∧
      (∀ q ∈ sample,
        lookupA hm'.metrics q.1 = some [q.2] ∧
        lookupA hm'.normalized q.1 = some [q.2]) ∧
      (hm'.active = true ↔
        (hm'.activityThreshold : ℚ) < pySum (getDA hm'.metrics "Activity" [])) := by
  obtain ⟨hm', hinit, c1, c2, c3, c4, c5⟩ :=
    @init_spec sample d.config.maxSamples d.config.samplesBeforeInclusion
      d.config.samplesBeforeExclusion d.config.normalizeSamples hact hnd
  have ho : recordOutcome d host sample = .error .keyError := by
    unfold recordOutcome
    rw [hhost]
    exact record_sample_keyError hwf hnew hnd
  refine ⟨hm', ?_, hinit, c1, c2, c3, c4, c5⟩
  unfold Detector.recordOrReplace
  rw [ho, hinit]

/-- Detector used to witness C9: it tracks host `A` in the state `sc1h2`
(two samples recorded, `Activity` alias established, aliased raw deque of
length 4) and carries a non-zero flag counter for `A`. -/
def sc9d : Detector :=
  { config := sc2cfg
    hostMetrics := [("A", sc1h2)]
    hostFlags := [("A", 2)]
    hostDeflags := []
    globalMetrics := []
    mitigatedHostIds := [] }

/-- Witness for C9: feeding `{Activity: 3, New: 7}` to the tracked host `A`
(whose window never saw `New`) replaces its state with a fresh singleton
window and leaves `hostFlags` untouched. -/
theorem claim_C9_unknown_metric_reset_witness :
    ∃ hm', sc9d.recordOrReplace "A" [("Activity", 3), ("New", 7)] =
        .ok { sc9d with hostMetrics := updateA sc9d.hostMetrics "A" hm' } ∧
      HostMetrics.init [("Activity", 3), ("New", 7)] sc9d.config.maxSamples
        sc9d.config.samplesBeforeInclusion sc9d.config.samplesBeforeExclusion
        sc9d.config.normalizeSamples = .ok hm' ∧
      hm'.currentSamples = 1 ∧ hm'.deltas = [] ∧ hm'.actAliased = false ∧
      (∀ q ∈ [(("Activity" : String), (3 : Value)), ("New", 7)],
        lookupA hm'.metrics q.1 = some [q.2] ∧
        lookupA hm'.normalized q.1 = some [q.2]) ∧
      (hm'.active = true ↔
        (hm'.activityThreshold : ℚ) < pySum (getDA hm'.metrics "Activity" [])) :=
  claim_C9_unknown_metric_reset sc9d "A" sc1h2 [("Activity", 3), ("New", 7)]
    (by with_unfolding_all rfl)
    (by unfold sampleWF; with_unfolding_all decide)
    ⟨("New", 7), by with_unfolding_all decide, by with_unfolding_all decide⟩
    (by with_unfolding_all decide)
    (by with_unfolding_all decide)

end CoResidency
